import Mathlib

/-!
# Oriented bounding boxes of the i3s plugin (`plugins/i3s/io/Obb.cpp`)

A shallow embedding of `pdal::i3s::Obb` and of the free function `rotate`.

Numbers.  The C++ code computes with `double`.  Here the scalar type is an
arbitrary linearly ordered field `K` together with a square-root operation
`sqrt : K → K` that is passed explicitly to every function that normalises a
quaternion.  All definitions are computable (they run on `ℚ` with `Rat.sqrt`);
general theorems assume that `sqrt` is exact (`IsSqrt`), which is the case for
`ℝ` with `Real.sqrt`.  Rounding is therefore not modelled; the results of IEEE
divisions by zero, which the edge/face stage can perform, are modelled
explicitly (`DivResult`).

Faults.  `Obb::intersectNormalized` writes in-plane coordinates into a buffer of
two doubles and reads a rectangle through a pointer that a loop is expected to
set.  Writing a third coordinate, or using what was never set, is undefined
behaviour in C++; the embedding reports it as a `Fault`.
-/

namespace pdal.i3s

variable {K : Type} [LinearOrderedField K]

/-! ## Linear algebra (the parts of Eigen that `Obb.cpp` uses) -/

/-- Coordinates of an `Eigen::Vector3d`. -/
@[ext] structure Vector3d (K : Type) where
  x : K
  y : K
  z : K
deriving DecidableEq, Repr

/-- Coefficients of an `Eigen::Quaterniond`, in the argument order of its
constructor `Quaterniond(w, x, y, z)`. -/
@[ext] structure Quaterniond (K : Type) where
  w : K
  x : K
  y : K
  z : K
deriving DecidableEq, Repr

/-- Component-wise sum, `a + b` on `Vector3d`. -/
def Vector3d.add (a b : Vector3d K) : Vector3d K :=
  ⟨a.x + b.x, a.y + b.y, a.z + b.z⟩

/-- Component-wise difference, `a - b` on `Vector3d`. -/
def Vector3d.sub (a b : Vector3d K) : Vector3d K :=
  ⟨a.x - b.x, a.y - b.y, a.z - b.z⟩

/-- Scaling `t * v` of a `Vector3d`. -/
def Vector3d.smul (t : K) (v : Vector3d K) : Vector3d K :=
  ⟨t * v.x, t * v.y, t * v.z⟩

/-- Inner product, `a.dot(b)`. -/
def Vector3d.dot (a b : Vector3d K) : K :=
  a.x * b.x + a.y * b.y + a.z * b.z

/-- Indexing `v[i]` for `i < 3`. -/
def Vector3d.get (v : Vector3d K) (i : Fin 3) : K :=
  match i with
  | 0 => v.x
  | 1 => v.y
  | 2 => v.z

/-- Squared norm of a quaternion, `squaredNorm()`. -/
def Quaterniond.squaredNorm (q : Quaterniond K) : K :=
  q.w * q.w + q.x * q.x + q.y * q.y + q.z * q.z

/-- In-place `normalize()`: the coefficients are divided by the norm when the
squared norm is positive and are left alone otherwise. -/
def Quaterniond.normalize (sqrt : K → K) (q : Quaterniond K) : Quaterniond K :=
  let n2 := q.squaredNorm
  if 0 < n2 then ⟨q.w / sqrt n2, q.x / sqrt n2, q.y / sqrt n2, q.z / sqrt n2⟩ else q

/-- Conjugate `conjugate()`: the vector part is negated. -/
def Quaterniond.conjugate (q : Quaterniond K) : Quaterniond K :=
  ⟨q.w, -q.x, -q.y, -q.z⟩

/-- Multiplicative inverse `inverse()`: the conjugate divided by the squared norm;
the zero quaternion when the squared norm is not positive. -/
def Quaterniond.inverse (q : Quaterniond K) : Quaterniond K :=
  let n2 := q.squaredNorm
  if 0 < n2 then ⟨q.w / n2, -q.x / n2, -q.y / n2, -q.z / n2⟩ else ⟨0, 0, 0, 0⟩

/-- Hamilton product `a * b` of two quaternions. -/
def Quaterniond.mul (a b : Quaterniond K) : Quaterniond K :=
  ⟨a.w * b.w - a.x * b.x - a.y * b.y - a.z * b.z,
   a.w * b.x + a.x * b.w + a.y * b.z - a.z * b.y,
   a.w * b.y + a.y * b.w + a.z * b.x - a.x * b.z,
   a.w * b.z + a.z * b.w + a.x * b.y - a.y * b.x⟩

/-- Vector part `vec()` of a quaternion. -/
def Quaterniond.vec (q : Quaterniond K) : Vector3d K :=
  ⟨q.x, q.y, q.z⟩

/-- The free function `rotate(v, rot)`: normalise `rot`, embed `v` as the pure
quaternion `p`, and return the vector part of `rot * p * rot.inverse()`. -/
def rotate (sqrt : K → K) (v : Vector3d K) (rot : Quaterniond K) : Vector3d K :=
  let rot := rot.normalize sqrt
  let p : Quaterniond K := ⟨0, v.x, v.y, v.z⟩
  let p := (rot.mul p).mul rot.inverse
  p.vec

/-! ## Axis-aligned boxes (`pdal/util/Bounds.hpp`) -/

/-- Modelled from the spec: the `BOX2D` of `pdal/util/Bounds.hpp`, which is not
part of the sources at hand; an axis-aligned rectangle built as
`BOX2D(minx, miny, maxx, maxy)`. -/
structure BOX2D (K : Type) where
  minx : K
  miny : K
  maxx : K
  maxy : K
deriving DecidableEq, Repr

/-- Modelled from the spec: the `BOX3D` of `pdal/util/Bounds.hpp`, which is not
part of the sources at hand; an axis-aligned box built as
`BOX3D(minx, miny, minz, maxx, maxy, maxz)`. -/
structure BOX3D (K : Type) where
  minx : K
  miny : K
  minz : K
  maxx : K
  maxy : K
  maxz : K
deriving DecidableEq, Repr

/-- Modelled from the spec: `BOX2D::contains(x, y)`, the point-containment query
of the closed rectangle. -/
def BOX2D.contains (b : BOX2D K) (x y : K) : Bool :=
  decide (b.minx ≤ x ∧ x ≤ b.maxx ∧ b.miny ≤ y ∧ y ≤ b.maxy)

/-- Modelled from the spec: `BOX3D::contains(x, y, z)`, the point-containment
query of the closed box. -/
def BOX3D.contains (b : BOX3D K) (x y z : K) : Bool :=
  decide (b.minx ≤ x ∧ x ≤ b.maxx ∧ b.miny ≤ y ∧ y ≤ b.maxy ∧ b.minz ≤ z ∧ z ≤ b.maxz)

/-! ## The box and its corners and edges -/

/-- The data members of `Obb`: centre `m_p`, half-extents `m_hx`, `m_hy`, `m_hz`
and orientation `m_quat`. -/
structure Obb (K : Type) where
  m_p : Vector3d K
  m_hx : K
  m_hy : K
  m_hz : K
  m_quat : Quaterniond K
deriving DecidableEq, Repr

/-- A `Segment` is a pair of points. -/
abbrev Segment (K : Type) := Vector3d K × Vector3d K

/-- The member `Obb::corner(pos)`; the assertion `pos < 8` is carried by the
type of `pos`. -/
def Obb.corner (sqrt : K → K) (o : Obb K) (pos : Fin 8) : Vector3d K :=
  let v : Vector3d K :=
    ⟨if pos.val &&& 1 ≠ 0 then -o.m_hx else o.m_hx,
     if pos.val &&& 2 ≠ 0 then -o.m_hy else o.m_hy,
     if pos.val &&& 4 ≠ 0 then -o.m_hz else o.m_hz⟩
  let v := rotate sqrt v o.m_quat
  v.add o.m_p

/-- The table `segs` of `Obb::segment`. -/
def segs : Fin 12 → Fin 8 × Fin 8 :=
  ![(0, 2), (2, 6), (6, 4), (4, 0),
    (1, 3), (3, 7), (7, 5), (5, 1),
    (0, 1), (2, 3), (4, 5), (6, 7)]

/-- The member `Obb::segment(pos)`; the assertion `pos < 12` is carried by the
type of `pos`. -/
def Obb.segment (sqrt : K → K) (o : Obb K) (pos : Fin 12) : Segment K :=
  (o.corner sqrt (segs pos).1, o.corner sqrt (segs pos).2)

/-- The member `Obb::transform(xform)`: the coordinate transform, a map on
points, is applied to the centre. -/
def Obb.transform (xform : Vector3d K → Vector3d K) (o : Obb K) : Obb K :=
  { o with m_p := xform o.m_p }

/-! ## The intersection test -/

/-- The value `(std::numeric_limits<double>::max)()`. -/
def numeric_limits_max : K := (2 ^ 53 - 1) * 2 ^ 971

/-- The value `(std::numeric_limits<double>::lowest)()`. -/
def numeric_limits_lowest : K := -((2 ^ 53 - 1) * 2 ^ 971)

/-- Undefined behaviour that `Obb::intersectNormalized` can run into. -/
inductive Fault where
  /-- A third in-plane coordinate is written to the buffer `coord[2]`. -/
  | coordOverflow
  /-- The rectangle is read through `box` although no face component set it. -/
  | boxUnset
  /-- An element of `coord` is read that was never written. -/
  | coordUnset
deriving DecidableEq, Repr

/-- Outcome of the IEEE division `a / b` in which `b` may be zero. -/
inductive DivResult (K : Type) where
  /-- Non-zero divisor: the quotient. -/
  | finite (t : K)
  /-- Zero divisor and non-zero dividend: an infinity. -/
  | infinite
  /-- Both zero: not a number. -/
  | nan
deriving DecidableEq, Repr

/-- The division `a / b` on doubles. -/
def fdiv (a b : K) : DivResult K :=
  if b = 0 then (if a = 0 then DivResult.nan else DivResult.infinite)
  else DivResult.finite (a / b)

/-- One pass of the first loop of `Obb::intersect`, for the corner indices in
`idx`: `none` is the early `return true` (corner `i` of `c` is in `box`),
otherwise the updated `(pmin, pmax)`. -/
def cornerScan (sqrt : K → K) (box : BOX3D K) (c : Obb K) :
    List (Fin 8) → Vector3d K × Vector3d K → Option (Vector3d K × Vector3d K)
  | [], st => some st
  | i :: idx, (pmin, pmax) =>
    let corner := c.corner sqrt i
    if box.contains corner.x corner.y corner.z then none
    else
      cornerScan sqrt box c idx
        (⟨min pmin.x corner.x, min pmin.y corner.y, min pmin.z corner.z⟩,
         ⟨max pmax.x corner.x, max pmax.y corner.y, max pmax.z corner.z⟩)

/-- The array `faces` of `Obb::intersectNormalized`. -/
def Obb.faces (o : Obb K) : List (Vector3d K) :=
  [⟨o.m_hx, 0, 0⟩, ⟨-o.m_hx, 0, 0⟩,
   ⟨0, o.m_hy, 0⟩, ⟨0, -o.m_hy, 0⟩,
   ⟨0, 0, o.m_hz⟩, ⟨0, 0, -o.m_hz⟩]

/-- The array `boxes` of `Obb::intersectNormalized`. -/
def Obb.boxes (o : Obb K) : Fin 3 → BOX2D K :=
  ![⟨-o.m_hy, -o.m_hz, o.m_hy, o.m_hz⟩,
    ⟨-o.m_hx, -o.m_hz, o.m_hx, o.m_hz⟩,
    ⟨-o.m_hx, -o.m_hy, o.m_hx, o.m_hy⟩]

/-- The locals `coord`, `pos` and `box` of the projection loop; an entry of
`coord` is `none` until it is written, `box` is `none` until it is set.  A
coordinate is a double that is a number (`some`) or not a number (`none`). -/
structure FaceState (K : Type) where
  coord0 : Option (Option K)
  coord1 : Option (Option K)
  pos : Nat
  box : Option (BOX2D K)

/-- One iteration `i` of the projection loop of `Obb::intersectNormalized`. -/
def projectStep (o : Obb K) (face : Vector3d K) (isect : Fin 3 → Option K)
    (st : FaceState K) (i : Fin 3) : Except Fault (FaceState K) :=
  if face.get i ≠ 0 then
    Except.ok { st with box := some (o.boxes i) }
  else if st.pos = 0 then
    Except.ok { st with coord0 := some (isect i), pos := 1 }
  else if st.pos = 1 then
    Except.ok { st with coord1 := some (isect i), pos := 2 }
  else
    Except.error Fault.coordOverflow

/-- The projection loop of `Obb::intersectNormalized` followed by
`box->contains(coord[0], coord[1])`. -/
def projectAndTest (o : Obb K) (face : Vector3d K) (isect : Fin 3 → Option K) :
    Except Fault Bool := do
  let st0 : FaceState K := ⟨none, none, 0, none⟩
  let st1 ← projectStep o face isect st0 0
  let st2 ← projectStep o face isect st1 1
  let st3 ← projectStep o face isect st2 2
  match st3.box, st3.coord0, st3.coord1 with
  | none, _, _ => Except.error Fault.boxUnset
  | some _, none, _ => Except.error Fault.coordUnset
  | some _, some _, none => Except.error Fault.coordUnset
  | some b, some (some x), some (some y) => Except.ok (b.contains x y)
  | some _, some _, some _ => Except.ok false

/-- The projection loop of `Obb::intersectNormalized` on its own: the locals
`coord`, `pos` and `box` after its three iterations. -/
def projectLoop (o : Obb K) (face : Vector3d K) (isect : Fin 3 → Option K) :
    Except Fault (FaceState K) := do
  let st0 : FaceState K := ⟨none, none, 0, none⟩
  let st1 ← projectStep o face isect st0 0
  let st2 ← projectStep o face isect st1 1
  projectStep o face isect st2 2

/-- The call `box->contains(coord[0], coord[1])` on the locals that the
projection loop leaves. -/
def rectangleTest (st : FaceState K) : Except Fault Bool :=
  match st.box, st.coord0, st.coord1 with
  | none, _, _ => Except.error Fault.boxUnset
  | some _, none, _ => Except.error Fault.coordUnset
  | some _, some _, none => Except.error Fault.coordUnset
  | some b, some (some x), some (some y) => Except.ok (b.contains x y)
  | some _, some _, some _ => Except.ok false

/-- The body of the face loop of `Obb::intersectNormalized` for one `face`: the
result is `true` when the branch that holds the disabled `return true` is
reached, `false` when the face is skipped or the point is outside. -/
def Obb.faceCheck (o : Obb K) (seg : Segment K) (face : Vector3d K) :
    Except Fault Bool :=
  let p0 := seg.1
  let p1 := seg.2
  let v1 := face.sub p0
  let v2 := p1.sub p0
  match fdiv (v1.dot face) (v2.dot face) with
  | DivResult.infinite => Except.ok false
  | DivResult.finite t =>
    let isect := ((p1.sub p0).smul t).add p0
    if t < 0 ∨ t > 1 then Except.ok false
    else projectAndTest o face (fun i => some (isect.get i))
  | DivResult.nan => projectAndTest o face (fun _ => none)

/-- What the body of the face loop does with one face. -/
inductive FacePath where
  /-- The `continue` after `t < 0 || t > 1` is taken. -/
  | skipped
  /-- The call `box->contains(coord[0], coord[1])` is reached, with its result. -/
  | tested (inside : Bool)
deriving DecidableEq, Repr

/-- The body of the face loop of `Obb::intersectNormalized` for one `face`, with
the path taken: the same computation as `Obb.faceCheck`, which keeps only
whether the rectangle test was reached and passed. -/
def Obb.facePath (o : Obb K) (seg : Segment K) (face : Vector3d K) :
    Except Fault FacePath :=
  let p0 := seg.1
  let p1 := seg.2
  let v1 := face.sub p0
  let v2 := p1.sub p0
  match fdiv (v1.dot face) (v2.dot face) with
  | DivResult.infinite => Except.ok FacePath.skipped
  | DivResult.finite t =>
    let isect := ((p1.sub p0).smul t).add p0
    if t < 0 ∨ t > 1 then Except.ok FacePath.skipped
    else (projectAndTest o face (fun i => some (isect.get i))).map FacePath.tested
  | DivResult.nan => (projectAndTest o face (fun _ => none)).map FacePath.tested

/-- The face loop of `Obb::intersectNormalized` over the faces in `fs`. -/
def Obb.faceLoop (o : Obb K) (seg : Segment K) : List (Vector3d K) → Except Fault Unit
  | [] => Except.ok ()
  | face :: fs => do
    let _ ← o.faceCheck seg face
    o.faceLoop seg fs

/-- The member `Obb::intersectNormalized(seg)`: every face is examined, nothing
is returned from inside the loop, and the result is `false`. -/
def Obb.intersectNormalized (o : Obb K) (seg : Segment K) : Except Fault Bool := do
  o.faceLoop seg o.faces
  pure false

/-- The last loop of `Obb::intersect` over the edge indices in `idx`: the
result of `intersectNormalized` is computed and dropped. -/
def Obb.segmentLoop (sqrt : K → K) (o c : Obb K) : List (Fin 12) → Except Fault Unit
  | [] => Except.ok ()
  | i :: idx => do
    let _ ← o.intersectNormalized (c.segment sqrt i)
    o.segmentLoop sqrt c idx

/-- The member `Obb::intersect(c)`. -/
def Obb.intersect (sqrt : K → K) (o c : Obb K) : Except Fault Bool :=
  let c := { c with m_p := c.m_p.sub o.m_p }
  let c := { c with m_p := rotate sqrt c.m_p o.m_quat.inverse }
  let box : BOX3D K := ⟨-o.m_hx, -o.m_hy, -o.m_hz, o.m_hx, o.m_hy, o.m_hz⟩
  let pmin : Vector3d K := ⟨numeric_limits_max, numeric_limits_max, numeric_limits_max⟩
  let pmax : Vector3d K :=
    ⟨numeric_limits_lowest, numeric_limits_lowest, numeric_limits_lowest⟩
  match cornerScan sqrt box c (List.finRange 8) (pmin, pmax) with
  | none => Except.ok true
  | some (pmin, pmax) =>
    if pmax.x > o.m_hx ∧ pmin.x < -o.m_hx ∧
       pmax.y > o.m_hy ∧ pmin.y < -o.m_hy ∧
       pmax.z > o.m_hz ∧ pmin.z < -o.m_hz then
      Except.ok true
    else do
      o.segmentLoop sqrt c (List.finRange 12)
      pure false

/-! ## Construction from a JSON description -/

/-- The kinds of `nlohmann::json` value that `Obb::parse` can tell apart.  The
members of an object are listed as key/value pairs. -/
inductive Json (K : Type) where
  | null
  | boolean (b : Bool)
  | number (x : K)
  | string (s : String)
  | array (elems : List (Json K))
  | object (members : List (String × Json K))

/-- The exceptions that can leave `Obb::parse`. -/
inductive ParseError where
  /-- An `EsriError` with its message. -/
  | esri (msg : String)
  /-- A type error of the JSON library, with its message. -/
  | json (msg : String)
deriving DecidableEq, Repr

/-- The query `is_array()`. -/
def Json.is_array : Json K → Bool
  | Json.array _ => true
  | _ => false

/-- The query `is_number()`. -/
def Json.is_number : Json K → Bool
  | Json.number _ => true
  | _ => false

/-- The member `count(name)`: `1` when an object has the key, `0` when it has
not, and `0` on every value that is not an object. -/
def Json.count (spec : Json K) (name : String) : Nat :=
  match spec with
  | Json.object ms => if ms.any (fun m => m.1 == name) then 1 else 0
  | _ => 0

/-- Access `spec[name]` by key.  `Obb.cpp` uses it only where the key has been
counted; `null` stands for the other cases. -/
def Json.getKey (spec : Json K) (name : String) : Json K :=
  match spec with
  | Json.object ms => (ms.lookup name).getD Json.null
  | _ => Json.null

/-- Access `arr[i]` by position.  `Obb.cpp` uses it only below the checked size;
`null` stands for the other cases. -/
def Json.getIdx (arr : Json K) (i : Nat) : Json K :=
  match arr with
  | Json.array es => es.getD i Json.null
  | _ => Json.null

/-- The member `size()`: the number of elements of an array or object, `0` for
`null` and `1` for every other value. -/
def Json.size : Json K → Nat
  | Json.null => 0
  | Json.array es => es.length
  | Json.object ms => ms.length
  | _ => 1

/-- The conversion `get<double>()`, which throws on a value that is not a
number. -/
def Json.getDouble : Json K → Except ParseError K
  | Json.number x => Except.ok x
  | _ => Except.error (ParseError.json "type must be number")

/-- The member `erase(key)`, which throws on a value that is not an object. -/
def Json.erase (spec : Json K) (key : String) : Except ParseError (Json K) :=
  match spec with
  | Json.object ms => Except.ok (Json.object (ms.filter (fun m => !(m.1 == key))))
  | _ => Except.error (ParseError.json "cannot use erase()")

/-- The least of the keys `k :: ks` in the order of `std::string`. -/
def minKey (k : String) (ks : List String) : String :=
  ks.foldl (fun acc k => if k < acc then k else acc) k

/-- The key `spec.begin().key()` of the first member of an object, which is the
member with the least key.  `Obb.cpp` uses it only on a non-empty object; the
empty string stands for the other cases. -/
def Json.beginKey : Json K → String
  | Json.object (m :: ms) => minKey m.1 (ms.map Prod.fst)
  | _ => ""

/-- The element loop of `Obb::verifyArray` over the indices in `idx`. -/
def verifyElems (arr : Json K) (name : String) : List Nat → Except ParseError Unit
  | [] => Except.ok ()
  | i :: idx =>
    let o := arr.getIdx i
    if !o.is_number then
      Except.error (ParseError.esri
        ("Invalid OBB - '" ++ name ++ "[" ++ toString i ++ "]' " ++ "is not numeric."))
    else verifyElems arr name idx

/-- The member `Obb::verifyArray(spec, name, cnt)`. -/
def Obb.verifyArray (spec : Json K) (name : String) (cnt : Nat) : Except ParseError Unit :=
  if spec.count name ≠ 1 then
    Except.error (ParseError.esri ("Invalid OBB - missing '" ++ name ++ "' entry."))
  else
    let arr := spec.getKey name
    if !arr.is_array then
      Except.error (ParseError.esri ("Invalid OBB - '" ++ name ++ "' is not an array."))
    else if arr.size ≠ cnt then
      Except.error (ParseError.esri
        ("Invalid OBB - '" ++ name ++ "' does not specify " ++ "three values."))
    else verifyElems arr name (List.range cnt)

/-- The member `Obb::parse(spec)`, returning the box that the constructor
`Obb(spec)` builds. -/
def Obb.parse (spec : Json K) : Except ParseError (Obb K) := do
  Obb.verifyArray spec "center" 3
  Obb.verifyArray spec "halfSize" 3
  Obb.verifyArray spec "quaternion" 4
  let x ← ((spec.getKey "center").getIdx 0).getDouble
  let y ← ((spec.getKey "center").getIdx 1).getDouble
  let z ← ((spec.getKey "center").getIdx 2).getDouble
  let m_p : Vector3d K := ⟨x, y, z⟩
  let m_hx ← ((spec.getKey "halfSize").getIdx 0).getDouble
  let m_hy ← ((spec.getKey "halfSize").getIdx 1).getDouble
  let m_hz ← ((spec.getKey "halfSize").getIdx 2).getDouble
  let qx ← ((spec.getKey "quaternion").getIdx 0).getDouble
  let qy ← ((spec.getKey "quaternion").getIdx 1).getDouble
  let qz ← ((spec.getKey "quaternion").getIdx 2).getDouble
  let qw ← ((spec.getKey "quaternion").getIdx 3).getDouble
  let m_quat : Quaterniond K := ⟨qw, qx, qy, qz⟩
  let spec ← spec.erase "center"
  let spec ← spec.erase "halfSize"
  let spec ← spec.erase "quaternion"
  if spec.size ≠ 0 then
    Except.error (ParseError.esri
      ("Invalid OBB: found invalid key '" ++ spec.beginKey ++ "'."))
  else
    pure ⟨m_p, m_hx, m_hy, m_hz, m_quat⟩

/-! ## Assumptions and vocabulary of the statements -/

/-- Exactness of the square root: `sqrt x` squares to `x` for every `x ≥ 0`. -/
def IsSqrt (sqrt : K → K) : Prop :=
  ∀ x : K, 0 ≤ x → sqrt x * sqrt x = x

/-- The rotation of `v` by `q` written without a square root:
the vector part of `q * (0, v) * conjugate q` divided by the squared norm. -/
def rotateExact (v : Vector3d K) (q : Quaterniond K) : Vector3d K :=
  (((q.mul ⟨0, v.x, v.y, v.z⟩).mul q.conjugate).vec).smul (1 / q.squaredNorm)

/-- The sign that bit `k` of a corner index selects: `-1` when the bit is set,
`+1` when it is clear. -/
def bitSign (i : Fin 8) (k : Nat) : K :=
  if i.val.testBit k then -1 else 1

/-- The box `c` as `o.intersect c` re-expresses it before it scans the corners:
the centre is translated by `-o.m_p` and rotated by the inverse of `o.m_quat`;
half-extents and orientation are those of `c`. -/
def Obb.toLocal (sqrt : K → K) (o c : Obb K) : Obb K :=
  { c with m_p := rotate sqrt (c.m_p.sub o.m_p) o.m_quat.inverse }

/-- The point `p` lies in the closed box `[-hx, hx] × [-hy, hy] × [-hz, hz]` of `o`. -/
def Obb.Holds (o : Obb K) (p : Vector3d K) : Prop :=
  -o.m_hx ≤ p.x ∧ p.x ≤ o.m_hx ∧ -o.m_hy ≤ p.y ∧ p.y ≤ o.m_hy ∧
    -o.m_hz ≤ p.z ∧ p.z ≤ o.m_hz

/-- The points `p i` reach strictly beyond the box of `o` in both directions of
each of the three axes. -/
def Obb.Surrounded (o : Obb K) (p : Fin 8 → Vector3d K) : Prop :=
  (∃ i, o.m_hx < (p i).x) ∧ (∃ i, (p i).x < -o.m_hx) ∧
  (∃ i, o.m_hy < (p i).y) ∧ (∃ i, (p i).y < -o.m_hy) ∧
  (∃ i, o.m_hz < (p i).z) ∧ (∃ i, (p i).z < -o.m_hz)

/-- The document `base` of the test, parsed from `baseString`. -/
def base : Json K :=
  Json.object
    [("center", Json.array [Json.number 0, Json.number 0, Json.number 0]),
     ("halfSize", Json.array [Json.number 2, Json.number 1, Json.number 1.5]),
     ("quaternion", Json.array [Json.number 0, Json.number 0, Json.number 0, Json.number 1])]

/-- The document `clip` of the test, parsed from `clipString`. -/
def clip : Json K :=
  Json.object
    [("center", Json.array [Json.number 2, Json.number 1, Json.number 1]),
     ("halfSize",
        Json.array [Json.number 2.12132034355, Json.number 0.707106781186, Json.number 1]),
     ("quaternion",
        Json.array [Json.number 0, Json.number 0, Json.number (-0.3826834324),
          Json.number 0.9238795325])]

/-- The value that a description stores under the key `f`, when it is an object
that has this key. -/
def Json.field (d : Json K) (f : String) : Option (Json K) :=
  match d with
  | Json.object ms => ms.lookup f
  | _ => none

/-- The keys of a description; none when it is not an object. -/
def Json.keys (d : Json K) : List String :=
  match d with
  | Json.object ms => ms.map Prod.fst
  | _ => []

/-- The field `f` of `d` is present and is an array of exactly `n` numbers. -/
def FieldOk (d : Json K) (f : String) (n : Nat) : Prop :=
  ∃ es, d.field f = some (Json.array es) ∧ es.length = n ∧ ∀ e ∈ es, e.is_number = true

/-- The key `k` is none of the three recognised keys. -/
def Unrecognized (k : String) : Prop :=
  k ≠ "center" ∧ k ≠ "halfSize" ∧ k ≠ "quaternion"

/-- The field `f` of `d` is missing, or is not an array, or has a length other
than `n`, or has an element that is not a number. -/
def FieldBad (d : Json K) (f : String) (n : Nat) : Prop :=
  d.field f = none ∨
  (∃ v, d.field f = some v ∧ v.is_array = false) ∨
  (∃ es, d.field f = some (Json.array es) ∧ es.length ≠ n) ∨
  (∃ es, d.field f = some (Json.array es) ∧ ∃ e ∈ es, e.is_number = false)

/-- The description `d` is not well formed: one of `center`, `halfSize` (three
numbers each) and `quaternion` (four numbers) is bad, or `d` has another key. -/
def Malformed (d : Json K) : Prop :=
  FieldBad d "center" 3 ∨ FieldBad d "halfSize" 3 ∨ FieldBad d "quaternion" 4 ∨
    ∃ k ∈ d.keys, Unrecognized k

/-- The message `msg` contains the text `field`. -/
def Mentions (msg field : String) : Prop :=
  field.data <:+: msg.data

/-- The message `msg` is about the rejected field `f` of `d`: the field is not an
array of `n` numbers, `msg` contains `f`, and when the field is an array of the
right length `msg` also contains the index of its first element that is not a
number. -/
def RejectedWith (d : Json K) (f : String) (n : Nat) (msg : String) : Prop :=
  ¬ FieldOk d f n ∧ Mentions msg f ∧
    ∀ es, d.field f = some (Json.array es) → es.length = n →
      ∃ i, i < n ∧ (es.getD i Json.null).is_number = false ∧
        (∀ j, j < i → (es.getD j Json.null).is_number = true) ∧ Mentions msg (toString i)

end pdal.i3s

namespace pdal.i3s

variable {K : Type} [LinearOrderedField K]

/-! ## Rotation without the square root -/

theorem squaredNorm_scaled (w x y z s : K) (hs0 : s ≠ 0)
    (hss : s * s = w * w + x * x + y * y + z * z) :
    (⟨w / s, x / s, y / s, z / s⟩ : Quaterniond K).squaredNorm = 1 := by
  simp only [Quaterniond.squaredNorm]
  field_simp
  linear_combination -hss

theorem inverse_of_unit (q : Quaterniond K) (h : q.squaredNorm = 1) :
    q.inverse = q.conjugate := by
  simp [Quaterniond.inverse, Quaterniond.conjugate, h]

theorem rotate_scaled (a b c w x y z s : K)
    (hss : s * s = w * w + x * x + y * y + z * z) :
    (((⟨w / s, x / s, y / s, z / s⟩ : Quaterniond K).mul ⟨0, a, b, c⟩).mul
        (⟨w / s, x / s, y / s, z / s⟩ : Quaterniond K).conjugate).vec
      = rotateExact ⟨a, b, c⟩ ⟨w, x, y, z⟩ := by
  simp only [rotateExact, Quaterniond.mul, Quaterniond.vec, Quaterniond.conjugate,
    Vector3d.smul, Quaterniond.squaredNorm]
  rw [← hss]
  ext <;> simp only [div_eq_mul_inv, mul_inv, one_mul] <;> ring

/-- With an exact square root, `rotate` by a non-zero quaternion is the
rotation `q (0, v) q* / |q|²`. -/
theorem rotate_eq (sqrt : K → K) (hs : IsSqrt sqrt) (v : Vector3d K) (q : Quaterniond K)
    (hq : 0 < q.squaredNorm) : rotate sqrt v q = rotateExact v q := by
  have hss : sqrt q.squaredNorm * sqrt q.squaredNorm = q.squaredNorm := hs _ hq.le
  have hs0 : sqrt q.squaredNorm ≠ 0 := by
    intro h0
    rw [h0, mul_zero] at hss
    exact hq.ne hss
  have hnorm : q.normalize sqrt = ⟨q.w / sqrt q.squaredNorm, q.x / sqrt q.squaredNorm,
      q.y / sqrt q.squaredNorm, q.z / sqrt q.squaredNorm⟩ := by
    simp only [Quaterniond.normalize, if_pos hq]
  have h1 := squaredNorm_scaled q.w q.x q.y q.z _ hs0 hss
  unfold rotate
  simp only [hnorm, inverse_of_unit _ h1]
  exact rotate_scaled v.x v.y v.z q.w q.x q.y q.z _ hss

/-- The real square root is exact. -/
theorem isSqrt_real : IsSqrt Real.sqrt :=
  fun _ hx => Real.mul_self_sqrt hx

/-- The components of `rotateExact`, written out. -/
theorem rotateExact_eq (v : Vector3d K) (q : Quaterniond K) :
    rotateExact v q =
      ⟨((q.w * q.w + q.x * q.x - q.y * q.y - q.z * q.z) * v.x
          + 2 * (q.x * q.y - q.w * q.z) * v.y
          + 2 * (q.x * q.z + q.w * q.y) * v.z) / q.squaredNorm,
       (2 * (q.x * q.y + q.w * q.z) * v.x
          + (q.w * q.w - q.x * q.x + q.y * q.y - q.z * q.z) * v.y
          + 2 * (q.y * q.z - q.w * q.x) * v.z) / q.squaredNorm,
       (2 * (q.x * q.z - q.w * q.y) * v.x
          + 2 * (q.y * q.z + q.w * q.x) * v.y
          + (q.w * q.w - q.x * q.x - q.y * q.y + q.z * q.z) * v.z) / q.squaredNorm⟩ := by
  simp only [rotateExact, Quaterniond.mul, Quaterniond.vec, Quaterniond.conjugate,
    Vector3d.smul]
  ext <;> simp only [div_eq_mul_inv, one_mul] <;> ring

/-! ## Corners and edges -/

/-- Rotation by the identity quaternion `(x, y, z, w) = (0, 0, 0, 1)` leaves a
vector unchanged. -/
theorem rotate_identity (sqrt : K → K) (hs : IsSqrt sqrt) (v : Vector3d K) :
    rotate sqrt v ⟨1, 0, 0, 0⟩ = v := by
  rw [rotate_eq sqrt hs v _ (by simp [Quaterniond.squaredNorm]), rotateExact_eq]
  ext <;> simp [Quaterniond.squaredNorm]

/-- Rotation by a multiple of `(x, y, z, w) = (0, 0, 1, 1)` is the quarter turn
about the z axis. -/
theorem rotate_quarter_z (sqrt : K → K) (hs : IsSqrt sqrt) (k : K) (hk : k ≠ 0)
    (v : Vector3d K) : rotate sqrt v ⟨k, 0, 0, k⟩ = ⟨-v.y, v.x, v.z⟩ := by
  have hkk : 0 < k * k := mul_self_pos.mpr hk
  have hn : 0 < (⟨k, 0, 0, k⟩ : Quaterniond K).squaredNorm := by
    simp only [Quaterniond.squaredNorm]; nlinarith
  rw [rotate_eq sqrt hs v _ hn, rotateExact_eq]
  simp only [Quaterniond.squaredNorm]
  ext <;> simp only <;> field_simp <;> ring

theorem sign_bit0 (i : Fin 8) (h : K) :
    (if i.val &&& 1 ≠ 0 then -h else h) = bitSign i 0 * h := by
  have e : (i.val &&& 1 ≠ 0) ↔ i.val.testBit 0 = true := by revert i; decide
  unfold bitSign
  by_cases hb : i.val.testBit 0 = true
  · rw [if_pos (e.mpr hb), if_pos hb]; ring
  · rw [if_neg (fun h' => hb (e.mp h')), if_neg hb]; ring

theorem sign_bit1 (i : Fin 8) (h : K) :
    (if i.val &&& 2 ≠ 0 then -h else h) = bitSign i 1 * h := by
  have e : (i.val &&& 2 ≠ 0) ↔ i.val.testBit 1 = true := by revert i; decide
  unfold bitSign
  by_cases hb : i.val.testBit 1 = true
  · rw [if_pos (e.mpr hb), if_pos hb]; ring
  · rw [if_neg (fun h' => hb (e.mp h')), if_neg hb]; ring

theorem sign_bit2 (i : Fin 8) (h : K) :
    (if i.val &&& 4 ≠ 0 then -h else h) = bitSign i 2 * h := by
  have e : (i.val &&& 4 ≠ 0) ↔ i.val.testBit 2 = true := by revert i; decide
  unfold bitSign
  by_cases hb : i.val.testBit 2 = true
  · rw [if_pos (e.mpr hb), if_pos hb]; ring
  · rw [if_neg (fun h' => hb (e.mp h')), if_neg hb]; ring

/-- A corner is the rotated vector of signed half-extents, moved to the centre. -/
theorem corner_eq (sqrt : K → K) (o : Obb K) (i : Fin 8) :
    o.corner sqrt i
      = (rotate sqrt ⟨bitSign i 0 * o.m_hx, bitSign i 1 * o.m_hy, bitSign i 2 * o.m_hz⟩
          o.m_quat).add o.m_p := by
  simp only [Obb.corner, sign_bit0, sign_bit1, sign_bit2]

theorem bits_cover : ∀ b0 b1 b2 : Bool, ∃ i : Fin 8,
    i.val.testBit 0 = b0 ∧ i.val.testBit 1 = b1 ∧ i.val.testBit 2 = b2 := by
  decide

/-- C6: for a box centred at the origin with the identity quaternion, corner `i`
is `(sx * hx, sy * hy, sz * hz)` with the signs given by bits 0, 1, 2 of `i`,
and every one of the eight sign combinations is the corner of some index. -/
theorem corner_axis_aligned (sqrt : K → K) (hs : IsSqrt sqrt) (hx hy hz : K) :
    (∀ i : Fin 8,
      Obb.corner sqrt ⟨⟨0, 0, 0⟩, hx, hy, hz, ⟨1, 0, 0, 0⟩⟩ i
        = ⟨bitSign i 0 * hx, bitSign i 1 * hy, bitSign i 2 * hz⟩) ∧
    (∀ b0 b1 b2 : Bool, ∃ i : Fin 8,
      Obb.corner sqrt ⟨⟨0, 0, 0⟩, hx, hy, hz, ⟨1, 0, 0, 0⟩⟩ i
        = ⟨if b0 then -hx else hx, if b1 then -hy else hy, if b2 then -hz else hz⟩) := by
  have h : ∀ i : Fin 8,
      Obb.corner sqrt ⟨⟨0, 0, 0⟩, hx, hy, hz, ⟨1, 0, 0, 0⟩⟩ i
        = ⟨bitSign i 0 * hx, bitSign i 1 * hy, bitSign i 2 * hz⟩ := by
    intro i
    simp only [corner_eq, rotate_identity sqrt hs, Vector3d.add, add_zero]
  refine ⟨h, ?_⟩
  intro b0 b1 b2
  obtain ⟨i, h0, h1, h2⟩ := bits_cover b0 b1 b2
  refine ⟨i, ?_⟩
  rw [h i]
  simp only [bitSign, h0, h1, h2]
  cases b0 <;> cases b1 <;> cases b2 <;> simp

/-- Witness of C6: over the reals, corner 5 of the box with half-extents
`(2, 1, 3/2)`. -/
theorem corner_axis_aligned_witness :
    IsSqrt Real.sqrt ∧
    Obb.corner Real.sqrt ⟨⟨0, 0, 0⟩, 2, 1, 3 / 2, ⟨1, 0, 0, 0⟩⟩ 5
      = ⟨bitSign 5 0 * 2, bitSign 5 1 * 1, bitSign 5 2 * (3 / 2)⟩ :=
  ⟨isSqrt_real, (corner_axis_aligned Real.sqrt isSqrt_real 2 1 (3 / 2)).1 5⟩

/-- C7: edge `i` is the pair of corners named by entry `i` of the table
`(0,2),(2,6),(6,4),(4,0),(1,3),(3,7),(7,5),(5,1),(0,1),(2,3),(4,5),(6,7)`, in that
endpoint order. -/
theorem segment_endpoints (sqrt : K → K) (o : Obb K) (i : Fin 12) :
    o.segment sqrt i =
      (o.corner sqrt
          (([(0, 2), (2, 6), (6, 4), (4, 0), (1, 3), (3, 7), (7, 5), (5, 1),
             (0, 1), (2, 3), (4, 5), (6, 7)] : List (Fin 8 × Fin 8)).getD i.val (0, 0)).1,
       o.corner sqrt
          (([(0, 2), (2, 6), (6, 4), (4, 0), (1, 3), (3, 7), (7, 5), (5, 1),
             (0, 1), (2, 3), (4, 5), (6, 7)] : List (Fin 8 × Fin 8)).getD i.val (0, 0)).2) := by
  fin_cases i <;> rfl

theorem projectAndTest_x (o : Obb K) (h : K) (hh : h ≠ 0) (isect : Fin 3 → Option K) :
    ∃ b, projectAndTest o ⟨h, 0, 0⟩ isect = Except.ok b := by
  unfold projectAndTest projectStep
  simp [Vector3d.get, hh, bind, Except.bind]
  rcases isect 1 with _ | y <;> rcases isect 2 with _ | z <;> simp

theorem projectAndTest_y (o : Obb K) (h : K) (hh : h ≠ 0) (isect : Fin 3 → Option K) :
    ∃ b, projectAndTest o ⟨0, h, 0⟩ isect = Except.ok b := by
  unfold projectAndTest projectStep
  simp [Vector3d.get, hh, bind, Except.bind]
  rcases isect 0 with _ | y <;> rcases isect 2 with _ | z <;> simp

theorem projectAndTest_z (o : Obb K) (h : K) (hh : h ≠ 0) (isect : Fin 3 → Option K) :
    ∃ b, projectAndTest o ⟨0, 0, h⟩ isect = Except.ok b := by
  unfold projectAndTest projectStep
  simp [Vector3d.get, hh, bind, Except.bind]
  rcases isect 0 with _ | y <;> rcases isect 1 with _ | z <;> simp

/-- A face is examined without fault when the projection of every candidate
point onto it is. -/
theorem faceCheck_ok (o : Obb K) (seg : Segment K) (face : Vector3d K)
    (h : ∀ isect, ∃ b, projectAndTest o face isect = Except.ok b) :
    ∃ b, o.faceCheck seg face = Except.ok b := by
  unfold Obb.faceCheck
  simp only
  split
  · exact ⟨false, rfl⟩
  · split
    · exact ⟨false, rfl⟩
    · exact h _
  · exact h _

/-- On a box whose half-extents are all non-zero, `intersectNormalized` runs
through its six faces and returns `false`. -/
theorem intersectNormalized_eq (o : Obb K) (hx : o.m_hx ≠ 0) (hy : o.m_hy ≠ 0)
    (hz : o.m_hz ≠ 0) (seg : Segment K) :
    o.intersectNormalized seg = Except.ok false := by
  obtain ⟨b1, h1⟩ := faceCheck_ok o seg ⟨o.m_hx, 0, 0⟩ (projectAndTest_x o _ hx)
  obtain ⟨b2, h2⟩ := faceCheck_ok o seg ⟨-o.m_hx, 0, 0⟩
    (projectAndTest_x o _ (neg_ne_zero.mpr hx))
  obtain ⟨b3, h3⟩ := faceCheck_ok o seg ⟨0, o.m_hy, 0⟩ (projectAndTest_y o _ hy)
  obtain ⟨b4, h4⟩ := faceCheck_ok o seg ⟨0, -o.m_hy, 0⟩
    (projectAndTest_y o _ (neg_ne_zero.mpr hy))
  obtain ⟨b5, h5⟩ := faceCheck_ok o seg ⟨0, 0, o.m_hz⟩ (projectAndTest_z o _ hz)
  obtain ⟨b6, h6⟩ := faceCheck_ok o seg ⟨0, 0, -o.m_hz⟩
    (projectAndTest_z o _ (neg_ne_zero.mpr hz))
  simp [Obb.intersectNormalized, Obb.faces, Obb.faceLoop, h1, h2, h3, h4, h5, h6, bind,
    Except.bind, pure, Except.pure]

/-- On a box whose half-extents are all non-zero, the edge loop of `intersect`
finishes without fault. -/
theorem segmentLoop_eq (sqrt : K → K) (o c : Obb K) (hx : o.m_hx ≠ 0) (hy : o.m_hy ≠ 0)
    (hz : o.m_hz ≠ 0) (idx : List (Fin 12)) :
    o.segmentLoop sqrt c idx = Except.ok () := by
  induction idx with
  | nil => rfl
  | cons i idx ih =>
    simp [Obb.segmentLoop, intersectNormalized_eq o hx hy hz, ih, bind, Except.bind]

/-! ## The corner scan and the outcome of `intersect` -/

/-- The scan returns early exactly when one of the scanned corners is in the box. -/
theorem cornerScan_eq_none_iff (sqrt : K → K) (box : BOX3D K) (c : Obb K)
    (l : List (Fin 8)) (st : Vector3d K × Vector3d K) :
    cornerScan sqrt box c l st = none ↔
      ∃ i ∈ l, box.contains (c.corner sqrt i).x (c.corner sqrt i).y (c.corner sqrt i).z
        = true := by
  induction l generalizing st with
  | nil => simp [cornerScan]
  | cons i l ih =>
    obtain ⟨pmin, pmax⟩ := st
    by_cases h : box.contains (c.corner sqrt i).x (c.corner sqrt i).y (c.corner sqrt i).z
        = true
    · simp [cornerScan, h]
    · simp [cornerScan, h, ih]

/-- When the scan runs to its end, the extremes it returns are those of the
initial values and of the scanned corners. -/
theorem cornerScan_eq_some (sqrt : K → K) (box : BOX3D K) (c : Obb K)
    (l : List (Fin 8)) (st st1 : Vector3d K × Vector3d K)
    (h : cornerScan sqrt box c l st = some st1) (b : K) :
    (b < st1.2.x ↔ b < st.2.x ∨ ∃ i ∈ l, b < (c.corner sqrt i).x) ∧
    (st1.1.x < b ↔ st.1.x < b ∨ ∃ i ∈ l, (c.corner sqrt i).x < b) ∧
    (b < st1.2.y ↔ b < st.2.y ∨ ∃ i ∈ l, b < (c.corner sqrt i).y) ∧
    (st1.1.y < b ↔ st.1.y < b ∨ ∃ i ∈ l, (c.corner sqrt i).y < b) ∧
    (b < st1.2.z ↔ b < st.2.z ∨ ∃ i ∈ l, b < (c.corner sqrt i).z) ∧
    (st1.1.z < b ↔ st.1.z < b ∨ ∃ i ∈ l, (c.corner sqrt i).z < b) := by
  induction l generalizing st with
  | nil =>
    simp only [cornerScan, Option.some.injEq] at h
    subst h
    simp
  | cons i l ih =>
    obtain ⟨pmin, pmax⟩ := st
    by_cases hc : box.contains (c.corner sqrt i).x (c.corner sqrt i).y (c.corner sqrt i).z
        = true
    · simp [cornerScan, hc] at h
    · simp only [cornerScan, hc, Bool.false_eq_true, if_false] at h
      have := ih _ h
      simp only [lt_max_iff, min_lt_iff, or_assoc] at this
      simp only [List.mem_cons, exists_eq_or_imp]
      exact this

theorem numeric_limits_max_pos : (0 : K) < numeric_limits_max := by
  unfold numeric_limits_max
  have h : (1 : K) < 2 ^ 53 := one_lt_pow₀ (by norm_num) (by norm_num)
  have h2 : (0 : K) < 2 ^ 971 := by positivity
  exact mul_pos (by linarith) h2

/-- The outcome of `o.intersect c` on a box `o` with positive half-extents: the
result is `true` when a corner of the re-expressed `c` is in the box of `o` or
when these corners surround it, and `false` otherwise. -/
theorem intersect_eq_of_pos (sqrt : K → K) (o c : Obb K) (hx : 0 < o.m_hx)
    (hy : 0 < o.m_hy) (hz : 0 < o.m_hz) :
    (((∃ i, o.Holds ((o.toLocal sqrt c).corner sqrt i)) ∨
        o.Surrounded ((o.toLocal sqrt c).corner sqrt)) →
      o.intersect sqrt c = Except.ok true) ∧
    (¬ ((∃ i, o.Holds ((o.toLocal sqrt c).corner sqrt i)) ∨
        o.Surrounded ((o.toLocal sqrt c).corner sqrt)) →
      o.intersect sqrt c = Except.ok false) := by
  have hmax : (0 : K) < numeric_limits_max := numeric_limits_max_pos
  have hlow : (numeric_limits_lowest : K) < 0 := by
    have : (numeric_limits_lowest : K) = -numeric_limits_max := rfl
    rw [this]; linarith
  have key : o.intersect sqrt c =
      match cornerScan sqrt ⟨-o.m_hx, -o.m_hy, -o.m_hz, o.m_hx, o.m_hy, o.m_hz⟩
          (o.toLocal sqrt c) (List.finRange 8)
          (⟨numeric_limits_max, numeric_limits_max, numeric_limits_max⟩,
           ⟨numeric_limits_lowest, numeric_limits_lowest, numeric_limits_lowest⟩) with
      | none => Except.ok true
      | some (pmin, pmax) =>
        if pmax.x > o.m_hx ∧ pmin.x < -o.m_hx ∧ pmax.y > o.m_hy ∧ pmin.y < -o.m_hy ∧
            pmax.z > o.m_hz ∧ pmin.z < -o.m_hz then Except.ok true
        else Except.ok false := by
    unfold Obb.intersect
    simp only [Obb.toLocal, segmentLoop_eq sqrt o _ (ne_of_gt hx) (ne_of_gt hy) (ne_of_gt hz)]
    rfl
  have hin : (∃ i, o.Holds ((o.toLocal sqrt c).corner sqrt i)) ↔
      cornerScan sqrt ⟨-o.m_hx, -o.m_hy, -o.m_hz, o.m_hx, o.m_hy, o.m_hz⟩
          (o.toLocal sqrt c) (List.finRange 8)
          (⟨numeric_limits_max, numeric_limits_max, numeric_limits_max⟩,
           ⟨numeric_limits_lowest, numeric_limits_lowest, numeric_limits_lowest⟩) = none := by
    rw [cornerScan_eq_none_iff]
    simp [BOX3D.contains, Obb.Holds]
  rw [key]
  cases hscan : cornerScan sqrt ⟨-o.m_hx, -o.m_hy, -o.m_hz, o.m_hx, o.m_hy, o.m_hz⟩
          (o.toLocal sqrt c) (List.finRange 8)
          (⟨numeric_limits_max, numeric_limits_max, numeric_limits_max⟩,
           ⟨numeric_limits_lowest, numeric_limits_lowest, numeric_limits_lowest⟩) with
  | none =>
    refine ⟨fun _ => rfl, fun hn => ?_⟩
    exact absurd (Or.inl (hin.mpr hscan)) hn
  | some st =>
    obtain ⟨pmin, pmax⟩ := st
    have hno : ¬ ∃ i, o.Holds ((o.toLocal sqrt c).corner sqrt i) := by
      rw [hin, hscan]; simp
    have ex := cornerScan_eq_some sqrt _ _ _ _ _ hscan o.m_hx
    have ey := cornerScan_eq_some sqrt _ _ _ _ _ hscan o.m_hy
    have ez := cornerScan_eq_some sqrt _ _ _ _ _ hscan o.m_hz
    have ex1 := cornerScan_eq_some sqrt _ _ _ _ _ hscan (-o.m_hx)
    have ey1 := cornerScan_eq_some sqrt _ _ _ _ _ hscan (-o.m_hy)
    have ez1 := cornerScan_eq_some sqrt _ _ _ _ _ hscan (-o.m_hz)
    have hsur : o.Surrounded ((o.toLocal sqrt c).corner sqrt) ↔
        (pmax.x > o.m_hx ∧ pmin.x < -o.m_hx ∧ pmax.y > o.m_hy ∧ pmin.y < -o.m_hy ∧
            pmax.z > o.m_hz ∧ pmin.z < -o.m_hz) := by
      simp only [List.mem_finRange, true_and] at ex ey ez ex1 ey1 ez1
      unfold Obb.Surrounded
      rw [gt_iff_lt, gt_iff_lt, gt_iff_lt, ex.1, ex1.2.1, ey.2.2.1, ey1.2.2.2.1,
        ez.2.2.2.2.1, ez1.2.2.2.2.2]
      have a1 : ¬ o.m_hx < numeric_limits_lowest := by linarith
      have a2 : ¬ (numeric_limits_max : K) < -o.m_hx := by linarith
      have a3 : ¬ o.m_hy < numeric_limits_lowest := by linarith
      have a4 : ¬ (numeric_limits_max : K) < -o.m_hy := by linarith
      have a5 : ¬ o.m_hz < numeric_limits_lowest := by linarith
      have a6 : ¬ (numeric_limits_max : K) < -o.m_hz := by linarith
      simp only [a1, a2, a3, a4, a5, a6, false_or]
    constructor
    · intro h
      rcases h with h | h
      · exact absurd h hno
      · simp only [if_pos (hsur.mp h)]
    · intro h
      have : ¬ o.Surrounded ((o.toLocal sqrt c).corner sqrt) := fun h1 => h (Or.inr h1)
      simp only [if_neg (fun h1 => this (hsur.mpr h1))]

/-! ## `intersect` on concrete boxes -/

theorem inverse_identity : (⟨1, 0, 0, 0⟩ : Quaterniond K).inverse = ⟨1, 0, 0, 0⟩ := by
  simp [Quaterniond.inverse, Quaterniond.squaredNorm]

/-- The zero vector is fixed by every rotation. -/
theorem rotate_zero (sqrt : K → K) (q : Quaterniond K) :
    rotate sqrt ⟨0, 0, 0⟩ q = ⟨0, 0, 0⟩ := by
  simp [rotate, Quaterniond.mul, Quaterniond.vec]

theorem exists_fin8 (P : Fin 8 → Prop) :
    (∃ i, P i) ↔ P 0 ∨ P 1 ∨ P 2 ∨ P 3 ∨ P 4 ∨ P 5 ∨ P 6 ∨ P 7 := by
  constructor
  · rintro ⟨i, h⟩
    fin_cases i
    exacts [.inl h, .inr (.inl h), .inr (.inr (.inl h)), .inr (.inr (.inr (.inl h))),
      .inr (.inr (.inr (.inr (.inl h)))), .inr (.inr (.inr (.inr (.inr (.inl h))))),
      .inr (.inr (.inr (.inr (.inr (.inr (.inl h)))))),
      .inr (.inr (.inr (.inr (.inr (.inr (.inr h))))))]
  · rintro (h | h | h | h | h | h | h | h) <;> exact ⟨_, h⟩

/-- The eight corners, index by index. -/
theorem corner_table (sqrt : K → K) (o : Obb K) :
    o.corner sqrt 0 = (rotate sqrt ⟨o.m_hx, o.m_hy, o.m_hz⟩ o.m_quat).add o.m_p ∧
    o.corner sqrt 1 = (rotate sqrt ⟨-o.m_hx, o.m_hy, o.m_hz⟩ o.m_quat).add o.m_p ∧
    o.corner sqrt 2 = (rotate sqrt ⟨o.m_hx, -o.m_hy, o.m_hz⟩ o.m_quat).add o.m_p ∧
    o.corner sqrt 3 = (rotate sqrt ⟨-o.m_hx, -o.m_hy, o.m_hz⟩ o.m_quat).add o.m_p ∧
    o.corner sqrt 4 = (rotate sqrt ⟨o.m_hx, o.m_hy, -o.m_hz⟩ o.m_quat).add o.m_p ∧
    o.corner sqrt 5 = (rotate sqrt ⟨-o.m_hx, o.m_hy, -o.m_hz⟩ o.m_quat).add o.m_p ∧
    o.corner sqrt 6 = (rotate sqrt ⟨o.m_hx, -o.m_hy, -o.m_hz⟩ o.m_quat).add o.m_p ∧
    o.corner sqrt 7 = (rotate sqrt ⟨-o.m_hx, -o.m_hy, -o.m_hz⟩ o.m_quat).add o.m_p :=
  ⟨rfl, rfl, rfl, rfl, rfl, rfl, rfl, rfl⟩

theorem segs_table :
    segs 0 = (0, 2) ∧ segs 1 = (2, 6) ∧ segs 2 = (6, 4) ∧ segs 3 = (4, 0) ∧
    segs 4 = (1, 3) ∧ segs 5 = (3, 7) ∧ segs 6 = (7, 5) ∧ segs 7 = (5, 1) ∧
    segs 8 = (0, 1) ∧ segs 9 = (2, 3) ∧ segs 10 = (4, 5) ∧ segs 11 = (6, 7) :=
  ⟨rfl, rfl, rfl, rfl, rfl, rfl, rfl, rfl, rfl, rfl, rfl, rfl⟩

/-- C2 (the code at the failing input): for the axis-aligned boxes `A`, centre
`(0,0,0)` and half-extents `(2,2,2)`, and `B`, centre `(3,3,0)` and half-extents
`(2,2,3)`, `A.intersect(B)` is `false` and `B.intersect(A)` is `true`; in
`A.intersect(B)` edge 5 of `B` crosses the face `z = 2` of `A` inside its
rectangle, which is the branch whose `return true` is disabled. -/
theorem intersect_not_symmetric :
    Obb.intersect Real.sqrt (⟨⟨0, 0, 0⟩, 2, 2, 2, ⟨1, 0, 0, 0⟩⟩ : Obb ℝ)
        ⟨⟨3, 3, 0⟩, 2, 2, 3, ⟨1, 0, 0, 0⟩⟩ = Except.ok false ∧
    Obb.intersect Real.sqrt (⟨⟨3, 3, 0⟩, 2, 2, 3, ⟨1, 0, 0, 0⟩⟩ : Obb ℝ)
        ⟨⟨0, 0, 0⟩, 2, 2, 2, ⟨1, 0, 0, 0⟩⟩ = Except.ok true ∧
    Obb.faceCheck (⟨⟨0, 0, 0⟩, 2, 2, 2, ⟨1, 0, 0, 0⟩⟩ : Obb ℝ)
      (Obb.segment Real.sqrt (Obb.toLocal Real.sqrt ⟨⟨0, 0, 0⟩, 2, 2, 2, ⟨1, 0, 0, 0⟩⟩
        ⟨⟨3, 3, 0⟩, 2, 2, 3, ⟨1, 0, 0, 0⟩⟩) 5) ⟨0, 0, 2⟩ = Except.ok true := by
  refine ⟨?_, ?_, ?_⟩
  · refine (intersect_eq_of_pos Real.sqrt _ _ (by norm_num) (by norm_num) (by norm_num)).2 ?_
    simp only [exists_fin8, Obb.Surrounded, Obb.Holds, corner_table, Obb.toLocal,
      inverse_identity, rotate_identity Real.sqrt isSqrt_real, Vector3d.sub, Vector3d.add]
    norm_num
  · refine (intersect_eq_of_pos Real.sqrt _ _ (by norm_num) (by norm_num) (by norm_num)).1 ?_
    simp only [exists_fin8, Obb.Surrounded, Obb.Holds, corner_table, Obb.toLocal,
      inverse_identity, rotate_identity Real.sqrt isSqrt_real, Vector3d.sub, Vector3d.add]
    norm_num
  · simp only [Obb.segment, segs_table, corner_table, Obb.toLocal,
      inverse_identity, rotate_identity Real.sqrt isSqrt_real, Vector3d.sub, Vector3d.add]
    norm_num [Obb.faceCheck, fdiv, Vector3d.sub, Vector3d.dot, Vector3d.smul, Vector3d.add,
      projectAndTest, projectStep, Vector3d.get, Obb.boxes, BOX2D.contains, bind,
      Except.bind]

/-- C1 (the code on the data of the test): `parse` builds the two boxes of the
scenario and `A.intersect(B)` is `false`; edge 11 of `B` crosses the face `y = 1`
of `A` inside its rectangle, which is the branch whose `return true` is
disabled. -/
theorem intersect_test_scenario :
    Obb.parse (base : Json ℝ) = Except.ok ⟨⟨0, 0, 0⟩, 2, 1, 1.5, ⟨1, 0, 0, 0⟩⟩ ∧
    Obb.parse (clip : Json ℝ) = Except.ok
      ⟨⟨2, 1, 1⟩, 2.12132034355, 0.707106781186, 1, ⟨0.9238795325, 0, 0, -0.3826834324⟩⟩ ∧
    Obb.intersect Real.sqrt (⟨⟨0, 0, 0⟩, 2, 1, 1.5, ⟨1, 0, 0, 0⟩⟩ : Obb ℝ)
      ⟨⟨2, 1, 1⟩, 2.12132034355, 0.707106781186, 1, ⟨0.9238795325, 0, 0, -0.3826834324⟩⟩
      = Except.ok false ∧
    Obb.faceCheck (⟨⟨0, 0, 0⟩, 2, 1, 1.5, ⟨1, 0, 0, 0⟩⟩ : Obb ℝ)
      (Obb.segment Real.sqrt (Obb.toLocal Real.sqrt ⟨⟨0, 0, 0⟩, 2, 1, 1.5, ⟨1, 0, 0, 0⟩⟩
        ⟨⟨2, 1, 1⟩, 2.12132034355, 0.707106781186, 1,
          ⟨0.9238795325, 0, 0, -0.3826834324⟩⟩) 11) ⟨0, 1, 0⟩ = Except.ok true := by
  have hq : 0 < (⟨0.9238795325, 0, 0, -0.3826834324⟩ : Quaterniond ℝ).squaredNorm := by
    norm_num [Quaterniond.squaredNorm]
  refine ⟨?_, ?_, ?_, ?_⟩
  · simp [Obb.parse, base, Obb.verifyArray, verifyElems, Json.count, Json.getKey, Json.getIdx,
      Json.is_array, Json.is_number, Json.size, Json.getDouble, Json.erase, List.range,
      List.range.loop, List.lookup, bind, Except.bind, pure, Except.pure]
  · simp [Obb.parse, clip, Obb.verifyArray, verifyElems, Json.count, Json.getKey, Json.getIdx,
      Json.is_array, Json.is_number, Json.size, Json.getDouble, Json.erase, List.range,
      List.range.loop, List.lookup, bind, Except.bind, pure, Except.pure]
  · refine (intersect_eq_of_pos Real.sqrt _ _ (by norm_num) (by norm_num) (by norm_num)).2 ?_
    simp only [exists_fin8, Obb.Surrounded, Obb.Holds, corner_table, Obb.toLocal,
      inverse_identity, rotate_identity Real.sqrt isSqrt_real,
      fun v => rotate_eq Real.sqrt isSqrt_real v _ hq, rotateExact_eq,
      Quaterniond.squaredNorm, Vector3d.sub, Vector3d.add]
    norm_num
  · simp only [Obb.segment, segs_table, corner_table, Obb.toLocal,
      inverse_identity, rotate_identity Real.sqrt isSqrt_real,
      fun v => rotate_eq Real.sqrt isSqrt_real v _ hq, rotateExact_eq,
      Quaterniond.squaredNorm, Vector3d.sub, Vector3d.add]
    norm_num [Obb.faceCheck, fdiv, Vector3d.sub, Vector3d.dot, Vector3d.smul, Vector3d.add,
      projectAndTest, projectStep, Vector3d.get, Obb.boxes, BOX2D.contains, bind,
      Except.bind]

/-- C3 (the code at the failing input): the box with centre `(0,0,0)`,
half-extents `(2,1,1)` and quaternion `(x, y, z, w) = (0, 0, 1, 1)` does not
intersect itself according to `intersect`; edge 8 of the re-expressed box
crosses the face `y = 1` inside its rectangle, which is the branch whose
`return true` is disabled. -/
theorem intersect_not_reflexive :
    Obb.intersect Real.sqrt (⟨⟨0, 0, 0⟩, 2, 1, 1, ⟨1, 0, 0, 1⟩⟩ : Obb ℝ)
      ⟨⟨0, 0, 0⟩, 2, 1, 1, ⟨1, 0, 0, 1⟩⟩ = Except.ok false ∧
    Obb.faceCheck (⟨⟨0, 0, 0⟩, 2, 1, 1, ⟨1, 0, 0, 1⟩⟩ : Obb ℝ)
      (Obb.segment Real.sqrt (Obb.toLocal Real.sqrt ⟨⟨0, 0, 0⟩, 2, 1, 1, ⟨1, 0, 0, 1⟩⟩
        ⟨⟨0, 0, 0⟩, 2, 1, 1, ⟨1, 0, 0, 1⟩⟩) 8) ⟨0, 1, 0⟩ = Except.ok true := by
  refine ⟨?_, ?_⟩
  · refine (intersect_eq_of_pos Real.sqrt _ _ (by norm_num) (by norm_num) (by norm_num)).2 ?_
    simp only [exists_fin8, Obb.Surrounded, Obb.Holds, corner_table, Obb.toLocal,
      Vector3d.sub, sub_self, rotate_zero,
      rotate_quarter_z Real.sqrt isSqrt_real 1 one_ne_zero, Vector3d.add]
    norm_num
  · simp only [Obb.segment, segs_table, corner_table, Obb.toLocal,
      Vector3d.sub, sub_self, rotate_zero,
      rotate_quarter_z Real.sqrt isSqrt_real 1 one_ne_zero, Vector3d.add]
    norm_num [Obb.faceCheck, fdiv, Vector3d.sub, Vector3d.dot, Vector3d.smul, Vector3d.add,
      projectAndTest, projectStep, Vector3d.get, Obb.boxes, BOX2D.contains, bind,
      Except.bind]

/-! ## Separated boxes -/

end pdal.i3s

namespace pdal.i3s

variable {K : Type}

/-! ## Validation -/

theorem mentions_mid (a f b : String) : Mentions (a ++ f ++ b) f :=
  ⟨a.data, b.data, by simp [String.data_append]⟩

theorem any_key_eq_isSome (ms : List (String × Json K)) (name : String) :
    ms.any (fun m => m.1 == name) = (ms.lookup name).isSome := by
  induction ms with
  | nil => rfl
  | cons m ms ih =>
    obtain ⟨k, v⟩ := m
    by_cases h : name = k
    · subst h; simp [List.lookup]
    · have h1 : (name == k) = false := by simpa using h
      have h2 : (k == name) = false := by simpa using (fun e : k = name => h e.symm)
      simp [List.lookup, h1, h2, ih]

/-- What the element loop does on the indices `idx`: it passes when every
element is a number and otherwise throws at the first that is not. -/
theorem verifyElems_spec (arr : Json K) (name : String) (idx : List Nat) :
    (verifyElems arr name idx = Except.ok () ∧ ∀ i ∈ idx, (arr.getIdx i).is_number = true) ∨
    (∃ pre i post, idx = pre ++ i :: post ∧ (∀ j ∈ pre, (arr.getIdx j).is_number = true) ∧
      (arr.getIdx i).is_number = false ∧
      verifyElems arr name idx = Except.error (ParseError.esri
        ("Invalid OBB - '" ++ name ++ "[" ++ toString i ++ "]' " ++ "is not numeric."))) := by
  induction idx with
  | nil => left; simp [verifyElems]
  | cons i idx ih =>
    by_cases h : (arr.getIdx i).is_number = true
    · rcases ih with ⟨h1, h2⟩ | ⟨pre, k, post, h1, h2, h3, h4⟩
      · left
        simp only [verifyElems, h, Bool.not_true, Bool.false_eq_true, if_false, h1, true_and]
        intro j hj
        rcases List.mem_cons.mp hj with rfl | hj
        · exact h
        · exact h2 j hj
      · right
        refine ⟨i :: pre, k, post, by simp [h1], ?_, h3, ?_⟩
        · intro j hj
          rcases List.mem_cons.mp hj with rfl | hj
          · exact h
          · exact h2 j hj
        · simp only [verifyElems, h, Bool.not_true, Bool.false_eq_true, if_false]
          exact h4
    · right
      have h0 : (arr.getIdx i).is_number = false := by simpa using h
      refine ⟨[], i, idx, rfl, by simp, h0, ?_⟩
      simp [verifyElems, h0]

/-- A position of `List.range n` splits the range into the smaller indices and
the rest. -/
theorem range_split (n : Nat) (pre : List Nat) (i : Nat) (post : List Nat)
    (h : List.range n = pre ++ i :: post) : i < n ∧ ∀ j, j < i → j ∈ pre := by
  have hi : i ∈ List.range n := by rw [h]; simp
  refine ⟨List.mem_range.mp hi, ?_⟩
  have hlen : pre.length = i := by
    have h1 : (List.range n)[pre.length]? = some i := by
      rw [h, List.getElem?_append_right (le_refl _)]; simp
    rw [List.getElem?_range] at h1
    · simpa using h1
    · have : (List.range n).length = (pre ++ i :: post).length := by rw [h]
      simp at this
      omega
  intro j hj
  have hjn : j < n := lt_trans hj (List.mem_range.mp hi)
  have h2 : (List.range n)[j]? = some j := by
    rw [List.getElem?_range hjn]
  rw [h, List.getElem?_append_left (by omega)] at h2
  exact List.getElem?_mem h2

theorem field_object (ms : List (String × Json K)) (f : String) :
    (Json.object ms).field f = ms.lookup f := rfl

/-- What `verifyArray` does: it passes exactly on a field that is an array of
`n` numbers, and every exception it throws is an `EsriError` about the field. -/
theorem verifyArray_spec (spec : Json K) (f : String) (n : Nat) :
    (Obb.verifyArray spec f n = Except.ok () ∧ FieldOk spec f n) ∨
    (∃ m, Obb.verifyArray spec f n = Except.error (ParseError.esri m) ∧
      RejectedWith spec f n m) := by
  have hmiss : spec.field f = none →
      ∃ m, Obb.verifyArray spec f n = Except.error (ParseError.esri m) ∧
        RejectedWith spec f n m := by
    intro hf
    refine ⟨"Invalid OBB - missing '" ++ f ++ "' entry.", ?_, ?_, mentions_mid _ _ _, ?_⟩
    · have hc : spec.count f = 0 := by
        cases spec with
        | object ms =>
          simp only [Json.field] at hf
          simp [Json.count, any_key_eq_isSome, hf]
        | _ => rfl
      simp [Obb.verifyArray, hc]
    · rintro ⟨es, h1, -⟩
      rw [hf] at h1
      exact Option.noConfusion h1
    · intro es h1
      rw [hf] at h1
      exact Option.noConfusion h1
  cases hfield : spec.field f with
  | none => exact Or.inr (hmiss hfield)
  | some v =>
    obtain ⟨ms, rfl⟩ : ∃ ms, spec = Json.object ms := by
      cases spec with
      | object ms => exact ⟨ms, rfl⟩
      | _ => simp [Json.field] at hfield
    rw [field_object] at hfield
    have hc : (Json.object ms).count f = 1 := by
      simp [Json.count, any_key_eq_isSome, hfield]
    have hg : (Json.object ms).getKey f = v := by
      simp [Json.getKey, hfield]
    by_cases harr : v.is_array = true
    · obtain ⟨es, rfl⟩ : ∃ es, v = Json.array es := by
        cases v with
        | array es => exact ⟨es, rfl⟩
        | _ => simp [Json.is_array] at harr
      by_cases hlen : es.length = n
      · have hv : Obb.verifyArray (Json.object ms) f n
            = verifyElems (Json.array es) f (List.range n) := by
          simp [Obb.verifyArray, hc, hg, Json.is_array, Json.size, hlen]
        rcases verifyElems_spec (Json.array es) f (List.range n) with
          ⟨h1, h2⟩ | ⟨pre, i, post, h1, h2, h3, h4⟩
        · left
          refine ⟨by rw [hv, h1], es, by rw [field_object, hfield], hlen, ?_⟩
          intro e he
          obtain ⟨k, hk, rfl⟩ := List.getElem_of_mem he
          have := h2 k (List.mem_range.mpr (hlen ▸ hk))
          simpa [Json.getIdx, List.getD, List.getElem?_eq_getElem hk] using this
        · right
          obtain ⟨hin, hsm⟩ := range_split n pre i post h1
          refine ⟨_, by rw [hv, h4], ?_, ?_, ?_⟩
          · rintro ⟨es1, e1, -, e3⟩
            rw [field_object, hfield] at e1
            obtain rfl : es = es1 := by
              simpa using e1
            have hk : i < es.length := hlen ▸ hin
            have := e3 es[i] (List.getElem_mem _)
            simp [Json.getIdx, List.getD, List.getElem?_eq_getElem hk, this] at h3
          · have : "Invalid OBB - '" ++ f ++ "[" ++ toString i ++ "]' " ++ "is not numeric."
                = "Invalid OBB - '" ++ f ++ ("[" ++ toString i ++ "]' " ++ "is not numeric.") := by
              simp [String.append_assoc]
            rw [this]
            exact mentions_mid _ _ _
          · intro es1 e1 _
            rw [field_object, hfield] at e1
            obtain rfl : es = es1 := by
              simpa using e1
            refine ⟨i, hin, h3, fun j hj => h2 j (hsm j hj), ?_⟩
            have : "Invalid OBB - '" ++ f ++ "[" ++ toString i ++ "]' " ++ "is not numeric."
                = ("Invalid OBB - '" ++ f ++ "[") ++ toString i ++ ("]' " ++ "is not numeric.") := by
              simp [String.append_assoc]
            rw [this]
            exact mentions_mid _ _ _
      · right
        refine ⟨"Invalid OBB - '" ++ f ++ "' does not specify " ++ "three values.", ?_, ?_, ?_, ?_⟩
        · simp [Obb.verifyArray, hc, hg, Json.is_array, Json.size, hlen]
        · rintro ⟨es1, e1, e2, -⟩
          rw [field_object, hfield] at e1
          obtain rfl : es = es1 := by
            simpa using e1
          exact hlen e2
        · have : "Invalid OBB - '" ++ f ++ "' does not specify " ++ "three values."
              = "Invalid OBB - '" ++ f ++ ("' does not specify " ++ "three values.") := by
            simp [String.append_assoc]
          rw [this]
          exact mentions_mid _ _ _
        · intro es1 e1 e2
          rw [field_object, hfield] at e1
          obtain rfl : es = es1 := by
            simpa using e1
          exact absurd e2 hlen
    · right
      have harr0 : v.is_array = false := by simpa using harr
      refine ⟨"Invalid OBB - '" ++ f ++ "' is not an array.", ?_, ?_, mentions_mid _ _ _, ?_⟩
      · simp [Obb.verifyArray, hc, hg, harr0]
      · rintro ⟨es1, e1, -⟩
        rw [field_object, hfield] at e1
        obtain rfl : v = Json.array es1 := by
          simpa using e1
        simp [Json.is_array] at harr0
      · intro es1 e1 _
        rw [field_object, hfield] at e1
        obtain rfl : v = Json.array es1 := by
          simpa using e1
        simp [Json.is_array] at harr0

/-! ## Construction -/

theorem minKey_spec (k : String) (ks : List String) :
    minKey k ks ∈ k :: ks ∧ ∀ j ∈ k :: ks, minKey k ks ≤ j := by
  induction ks generalizing k with
  | nil => simp [minKey]
  | cons a ks ih =>
    have e : minKey k (a :: ks) = minKey (if a < k then a else k) ks := rfl
    rw [e]
    obtain ⟨h1, h2⟩ := ih (if a < k then a else k)
    by_cases hak : a < k
    · simp only [hak, if_true] at h1 h2 ⊢
      refine ⟨List.mem_cons_of_mem _ h1, ?_⟩
      intro j hj
      rcases List.mem_cons.mp hj with rfl | hj
      · exact le_trans (h2 a (List.mem_cons_self _ _)) (le_of_lt hak)
      · exact h2 j hj
    · simp only [hak, if_false] at h1 h2 ⊢
      refine ⟨?_, ?_⟩
      · rcases List.mem_cons.mp h1 with h | h
        · rw [h]; exact List.mem_cons_self _ _
        · exact List.mem_cons_of_mem _ (List.mem_cons_of_mem _ h)
      · intro j hj
        rcases List.mem_cons.mp hj with rfl | hj
        · exact h2 j (List.mem_cons_self _ _)
        · rcases List.mem_cons.mp hj with rfl | hj
          · exact le_trans (h2 k (List.mem_cons_self _ _)) (not_lt.mp hak)
          · exact h2 j (List.mem_cons_of_mem _ hj)

theorem verifyArray_of_fieldOk (spec : Json K) (f : String) (n : Nat) (h : FieldOk spec f n) :
    Obb.verifyArray spec f n = Except.ok () := by
  rcases verifyArray_spec spec f n with ⟨h1, -⟩ | ⟨m, -, h2, -⟩
  · exact h1
  · exact absurd h h2

theorem number_of_is_number (e : Json K) (h : e.is_number = true) : ∃ x, e = Json.number x := by
  cases e with
  | number x => exact ⟨x, rfl⟩
  | _ => simp [Json.is_number] at h

theorem fieldOk_three (d : Json K) (f : String) (h : FieldOk d f 3) :
    ∃ x y z, d.field f = some (Json.array [Json.number x, Json.number y, Json.number z]) := by
  obtain ⟨es, h1, h2, h3⟩ := h
  match es, h2 with
  | [e0, e1, e2], _ =>
    obtain ⟨x, rfl⟩ := number_of_is_number e0 (h3 _ (by simp))
    obtain ⟨y, rfl⟩ := number_of_is_number e1 (h3 _ (by simp))
    obtain ⟨z, rfl⟩ := number_of_is_number e2 (h3 _ (by simp))
    exact ⟨x, y, z, h1⟩

theorem fieldOk_four (d : Json K) (f : String) (h : FieldOk d f 4) :
    ∃ x y z w, d.field f
      = some (Json.array [Json.number x, Json.number y, Json.number z, Json.number w]) := by
  obtain ⟨es, h1, h2, h3⟩ := h
  match es, h2 with
  | [e0, e1, e2, e3], _ =>
    obtain ⟨x, rfl⟩ := number_of_is_number e0 (h3 _ (by simp))
    obtain ⟨y, rfl⟩ := number_of_is_number e1 (h3 _ (by simp))
    obtain ⟨z, rfl⟩ := number_of_is_number e2 (h3 _ (by simp))
    obtain ⟨w, rfl⟩ := number_of_is_number e3 (h3 _ (by simp))
    exact ⟨x, y, z, w, h1⟩

/-- The members that are left after the three `erase` calls of `parse`. -/
theorem mem_erased (ms : List (String × Json K)) (m : String × Json K) :
    m ∈ ((ms.filter (fun m => !(m.1 == "center"))).filter
          (fun m => !(m.1 == "halfSize"))).filter (fun m => !(m.1 == "quaternion"))
      ↔ m ∈ ms ∧ Unrecognized m.1 := by
  simp only [List.mem_filter, Unrecognized, Bool.not_eq_true', beq_eq_false_iff_ne, ne_eq]
  tauto

/-- On an object whose three fields are arrays of numbers, `parse` passes
validation and its outcome depends on the keys that are left. -/
theorem parse_object (ms : List (String × Json K)) (x y z a b c qx qy qz qw : K)
    (hc : ms.lookup "center" = some (Json.array [Json.number x, Json.number y, Json.number z]))
    (hh : ms.lookup "halfSize"
      = some (Json.array [Json.number a, Json.number b, Json.number c]))
    (hq : ms.lookup "quaternion"
      = some (Json.array [Json.number qx, Json.number qy, Json.number qz, Json.number qw])) :
    Obb.parse (Json.object ms) =
      if (Json.object (((ms.filter (fun m => !(m.1 == "center"))).filter
          (fun m => !(m.1 == "halfSize"))).filter (fun m => !(m.1 == "quaternion")))).size ≠ 0
      then Except.error (ParseError.esri ("Invalid OBB: found invalid key '" ++
        (Json.object (((ms.filter (fun m => !(m.1 == "center"))).filter
          (fun m => !(m.1 == "halfSize"))).filter
            (fun m => !(m.1 == "quaternion")))).beginKey ++ "'."))
      else Except.ok ⟨⟨x, y, z⟩, a, b, c, ⟨qw, qx, qy, qz⟩⟩ := by
  have v1 : Obb.verifyArray (Json.object ms) "center" 3 = Except.ok () :=
    verifyArray_of_fieldOk _ _ _ ⟨_, hc, rfl, by simp [Json.is_number]⟩
  have v2 : Obb.verifyArray (Json.object ms) "halfSize" 3 = Except.ok () :=
    verifyArray_of_fieldOk _ _ _ ⟨_, hh, rfl, by simp [Json.is_number]⟩
  have v3 : Obb.verifyArray (Json.object ms) "quaternion" 4 = Except.ok () :=
    verifyArray_of_fieldOk _ _ _ ⟨_, hq, rfl, by simp [Json.is_number]⟩
  simp only [Obb.parse, v1, v2, v3, Json.getKey, hc, hh, hq, Option.getD_some, Json.getIdx,
    List.getD, Json.getDouble, Json.erase, bind, Except.bind, pure, Except.pure]
  rfl

theorem parse_of_center_rejected (spec : Json K) (m : String)
    (h : Obb.verifyArray spec "center" 3 = Except.error (ParseError.esri m)) :
    Obb.parse spec = Except.error (ParseError.esri m) := by
  simp [Obb.parse, h, bind, Except.bind]

theorem parse_of_halfSize_rejected (spec : Json K) (m : String)
    (h1 : Obb.verifyArray spec "center" 3 = Except.ok ())
    (h : Obb.verifyArray spec "halfSize" 3 = Except.error (ParseError.esri m)) :
    Obb.parse spec = Except.error (ParseError.esri m) := by
  simp [Obb.parse, h1, h, bind, Except.bind]

theorem parse_of_quaternion_rejected (spec : Json K) (m : String)
    (h1 : Obb.verifyArray spec "center" 3 = Except.ok ())
    (h2 : Obb.verifyArray spec "halfSize" 3 = Except.ok ())
    (h : Obb.verifyArray spec "quaternion" 4 = Except.error (ParseError.esri m)) :
    Obb.parse spec = Except.error (ParseError.esri m) := by
  simp [Obb.parse, h1, h2, h, bind, Except.bind]

/-- The outcome of `parse` on every description: the first of `center`,
`halfSize`, `quaternion` that fails validation decides the error; when all three
pass, the least unrecognised key decides it; when there is none, the box is
built from the twelve numbers. -/
theorem parse_spec (spec : Json K) :
    (∃ m, Obb.parse spec = Except.error (ParseError.esri m) ∧
      RejectedWith spec "center" 3 m) ∨
    (FieldOk spec "center" 3 ∧
      ∃ m, Obb.parse spec = Except.error (ParseError.esri m) ∧
        RejectedWith spec "halfSize" 3 m) ∨
    (FieldOk spec "center" 3 ∧ FieldOk spec "halfSize" 3 ∧
      ∃ m, Obb.parse spec = Except.error (ParseError.esri m) ∧
        RejectedWith spec "quaternion" 4 m) ∨
    (FieldOk spec "center" 3 ∧ FieldOk spec "halfSize" 3 ∧ FieldOk spec "quaternion" 4 ∧
      ∃ k ∈ spec.keys, Unrecognized k ∧ (∀ j ∈ spec.keys, Unrecognized j → k ≤ j) ∧
        Obb.parse spec = Except.error (ParseError.esri
          ("Invalid OBB: found invalid key '" ++ k ++ "'."))) ∨
    (∃ x y z a b c qx qy qz qw,
      spec.field "center" = some (Json.array [Json.number x, Json.number y, Json.number z]) ∧
      spec.field "halfSize" = some (Json.array [Json.number a, Json.number b, Json.number c]) ∧
      spec.field "quaternion"
        = some (Json.array [Json.number qx, Json.number qy, Json.number qz, Json.number qw]) ∧
      (∀ k ∈ spec.keys, ¬ Unrecognized k) ∧
      Obb.parse spec = Except.ok ⟨⟨x, y, z⟩, a, b, c, ⟨qw, qx, qy, qz⟩⟩) := by
  rcases verifyArray_spec spec "center" 3 with ⟨v1, f1⟩ | ⟨m, hm, hr⟩
  swap
  · exact Or.inl ⟨m, parse_of_center_rejected spec m hm, hr⟩
  rcases verifyArray_spec spec "halfSize" 3 with ⟨v2, f2⟩ | ⟨m, hm, hr⟩
  swap
  · exact Or.inr (Or.inl ⟨f1, m, parse_of_halfSize_rejected spec m v1 hm, hr⟩)
  rcases verifyArray_spec spec "quaternion" 4 with ⟨v3, f3⟩ | ⟨m, hm, hr⟩
  swap
  · exact Or.inr (Or.inr (Or.inl ⟨f1, f2, m, parse_of_quaternion_rejected spec m v1 v2 hm, hr⟩))
  right; right; right
  obtain ⟨x, y, z, hc⟩ := fieldOk_three spec _ f1
  obtain ⟨a, b, c, hh⟩ := fieldOk_three spec _ f2
  obtain ⟨qx, qy, qz, qw, hq⟩ := fieldOk_four spec _ f3
  obtain ⟨ms, rfl⟩ : ∃ ms, spec = Json.object ms := by
    cases spec with
    | object ms => exact ⟨ms, rfl⟩
    | _ => simp [Json.field] at hc
  have hp := parse_object ms x y z a b c qx qy qz qw hc hh hq
  have hmem := mem_erased ms
  generalize hrest : ((ms.filter (fun m => !(m.1 == "center"))).filter
      (fun m => !(m.1 == "halfSize"))).filter (fun m => !(m.1 == "quaternion")) = rest
      at hp hmem
  cases rest with
  | nil =>
    right
    refine ⟨x, y, z, a, b, c, qx, qy, qz, qw, hc, hh, hq, ?_, ?_⟩
    · intro k hk hu
      obtain ⟨m, hm, rfl⟩ := List.mem_map.mp hk
      have := (hmem m).mpr ⟨hm, hu⟩
      simp at this
    · simpa [Json.size] using hp
  | cons m0 rest =>
    left
    have hk := minKey_spec m0.1 (rest.map Prod.fst)
    have hkeys : ∀ j, j ∈ m0.1 :: rest.map Prod.fst ↔
        j ∈ (Json.object ms).keys ∧ Unrecognized j := by
      intro j
      have : m0.1 :: rest.map Prod.fst = (m0 :: rest).map Prod.fst := rfl
      rw [this]
      simp only [Json.keys, List.mem_map]
      constructor
      · rintro ⟨m, hm, rfl⟩
        exact ⟨⟨m, ((hmem m).mp hm).1, rfl⟩, ((hmem m).mp hm).2⟩
      · rintro ⟨⟨m, hm, rfl⟩, hu⟩
        exact ⟨m, (hmem m).mpr ⟨hm, hu⟩, rfl⟩
    refine ⟨f1, f2, f3, minKey m0.1 (rest.map Prod.fst), ((hkeys _).mp hk.1).1,
      ((hkeys _).mp hk.1).2, ?_, ?_⟩
    · intro j hj hu
      exact hk.2 j ((hkeys j).mpr ⟨hj, hu⟩)
    · simpa [Json.size, Json.beginKey] using hp

theorem fieldBad_iff (d : Json K) (f : String) (n : Nat) :
    FieldBad d f n ↔ ¬ FieldOk d f n := by
  constructor
  · rintro (h | ⟨v, h1, h2⟩ | ⟨es, h1, h2⟩ | ⟨es, h1, e, he, h2⟩) ⟨es1, e1, e2, e3⟩
    · rw [h] at e1; exact Option.noConfusion e1
    · rw [h1] at e1
      obtain rfl : v = Json.array es1 := by simpa using e1
      simp [Json.is_array] at h2
    · rw [h1] at e1
      obtain rfl : es = es1 := by simpa using e1
      exact h2 e2
    · rw [h1] at e1
      obtain rfl : es = es1 := by simpa using e1
      rw [e3 e he] at h2
      exact Bool.noConfusion h2
  · intro h
    cases hf : d.field f with
    | none => exact Or.inl hf
    | some v =>
      by_cases harr : v.is_array = true
      · obtain ⟨es, rfl⟩ : ∃ es, v = Json.array es := by
          cases v with
          | array es => exact ⟨es, rfl⟩
          | _ => simp [Json.is_array] at harr
        by_cases hlen : es.length = n
        · right; right; right
          refine ⟨es, hf, ?_⟩
          by_contra hall
          apply h
          refine ⟨es, hf, hlen, ?_⟩
          intro e he
          by_contra hne
          exact hall ⟨e, he, by simpa using hne⟩
        · exact Or.inr (Or.inr (Or.inl ⟨es, hf, hlen⟩))
      · exact Or.inr (Or.inl ⟨v, hf, by simpa using harr⟩)

theorem parse_error_case (spec : Json K) (m : String) (P : Prop)
    (hp : Obb.parse spec = Except.error (ParseError.esri m)) (hm : P) :
    ((∃ o, Obb.parse spec = Except.ok o) ↔ ¬ P) ∧
    ((∃ m, Obb.parse spec = Except.error (ParseError.esri m)) ↔ P) := by
  refine ⟨⟨?_, fun hn => absurd hm hn⟩, ⟨fun _ => hm, fun _ => ⟨m, hp⟩⟩⟩
  rintro ⟨o, ho⟩
  rw [hp] at ho
  exact Except.noConfusion ho

/-- C5: `parse` produces a box exactly on the descriptions that are not
malformed, and raises a validation error exactly on those that are: a required
field missing, not an array, of the wrong length or with a non-numeric element,
or a key other than the three. -/
theorem parse_ok_iff_well_formed (spec : Json K) :
    ((∃ o, Obb.parse spec = Except.ok o) ↔ ¬ Malformed spec) ∧
    ((∃ m, Obb.parse spec = Except.error (ParseError.esri m)) ↔ Malformed spec) := by
  unfold Malformed
  simp only [fieldBad_iff]
  rcases parse_spec spec with ⟨m, hp, hr, -⟩ | ⟨f1, m, hp, hr, -⟩ | ⟨f1, f2, m, hp, hr, -⟩ |
    ⟨f1, f2, f3, k, hk, hu, -, hp⟩ | ⟨x, y, z, a, b, c, qx, qy, qz, qw, hc, hh, hq, hk, hp⟩
  · exact parse_error_case spec m _ hp (Or.inl hr)
  · exact parse_error_case spec m _ hp (Or.inr (Or.inl hr))
  · exact parse_error_case spec m _ hp (Or.inr (Or.inr (Or.inl hr)))
  · exact parse_error_case spec _ _ hp (Or.inr (Or.inr (Or.inr ⟨k, hk, hu⟩)))
  · have f1 : FieldOk spec "center" 3 := ⟨_, hc, rfl, by simp [Json.is_number]⟩
    have f2 : FieldOk spec "halfSize" 3 := ⟨_, hh, rfl, by simp [Json.is_number]⟩
    have f3 : FieldOk spec "quaternion" 4 := ⟨_, hq, rfl, by simp [Json.is_number]⟩
    have hm : ¬ (¬ FieldOk spec "center" 3 ∨ ¬ FieldOk spec "halfSize" 3 ∨
        ¬ FieldOk spec "quaternion" 4 ∨ ∃ k ∈ spec.keys, Unrecognized k) := by
      rintro (h | h | h | ⟨k, h1, h2⟩)
      · exact h f1
      · exact h f2
      · exact h f3
      · exact hk k h1 h2
    refine ⟨⟨fun _ => hm, fun _ => ⟨_, hp⟩⟩, ⟨?_, fun h => absurd h hm⟩⟩
    rintro ⟨m, hm1⟩
    rw [hp] at hm1
    exact Except.noConfusion hm1

/-- C9: on a well-formed description `parse` stores the centre, the half-extents
in their order, and the quaternion with vector part `(qx, qy, qz)` and scalar part
`qw` (the fourth array element), each number as given. -/
theorem parse_stores_fields (spec : Json K) (x y z a b c qx qy qz qw : K)
    (hc : spec.field "center"
      = some (Json.array [Json.number x, Json.number y, Json.number z]))
    (hh : spec.field "halfSize"
      = some (Json.array [Json.number a, Json.number b, Json.number c]))
    (hq : spec.field "quaternion"
      = some (Json.array [Json.number qx, Json.number qy, Json.number qz, Json.number qw]))
    (hk : ∀ k ∈ spec.keys, ¬ Unrecognized k) :
    ∃ o, Obb.parse spec = Except.ok o ∧ o.m_p = ⟨x, y, z⟩ ∧
      o.m_hx = a ∧ o.m_hy = b ∧ o.m_hz = c ∧
      o.m_quat.x = qx ∧ o.m_quat.y = qy ∧ o.m_quat.z = qz ∧ o.m_quat.w = qw := by
  obtain ⟨ms, rfl⟩ : ∃ ms, spec = Json.object ms := by
    cases spec with
    | object ms => exact ⟨ms, rfl⟩
    | _ => simp [Json.field] at hc
  have hp := parse_object ms x y z a b c qx qy qz qw hc hh hq
  have hrest : ((ms.filter (fun m => !(m.1 == "center"))).filter
      (fun m => !(m.1 == "halfSize"))).filter (fun m => !(m.1 == "quaternion")) = [] := by
    rw [List.eq_nil_iff_forall_not_mem]
    intro m hm
    have := (mem_erased ms m).mp hm
    exact hk m.1 (List.mem_map.mpr ⟨m, this.1, rfl⟩) this.2
  rw [hrest] at hp
  exact ⟨_, by simpa [Json.size] using hp, rfl, rfl, rfl, rfl, rfl, rfl, rfl, rfl⟩

/-- Witness of C9: the description `base` of the test. -/
theorem parse_stores_fields_witness :
    ∃ o, Obb.parse (base : Json ℚ) = Except.ok o ∧ o.m_p = ⟨0, 0, 0⟩ ∧
      o.m_hx = 2 ∧ o.m_hy = 1 ∧ o.m_hz = 1.5 ∧
      o.m_quat.x = 0 ∧ o.m_quat.y = 0 ∧ o.m_quat.z = 0 ∧ o.m_quat.w = 1 :=
  parse_stores_fields base 0 0 0 2 1 1.5 0 0 0 1 rfl rfl rfl
    (by simp [base, Json.keys, Unrecognized])

end pdal.i3s

namespace pdal.i3s

variable {K : Type} [LinearOrderedField K]

/-! ## The outcome of `intersect` on every pair of boxes -/

/-- The three outcomes of `o.intersect c`, for half-extents of `o` that are not
below the least finite double: `true` when a corner of the re-expressed `c` is in
the box of `o`; otherwise `true` when these corners surround the box; otherwise
what the edge loop leaves, followed by `false`. -/
theorem intersect_cases (sqrt : K → K) (o c : Obb K)
    (hx : numeric_limits_lowest ≤ o.m_hx) (hy : numeric_limits_lowest ≤ o.m_hy)
    (hz : numeric_limits_lowest ≤ o.m_hz) :
    ((∃ i, o.Holds ((o.toLocal sqrt c).corner sqrt i)) →
      o.intersect sqrt c = Except.ok true) ∧
    ((¬ ∃ i, o.Holds ((o.toLocal sqrt c).corner sqrt i)) →
      o.Surrounded ((o.toLocal sqrt c).corner sqrt) →
      o.intersect sqrt c = Except.ok true) ∧
    ((¬ ∃ i, o.Holds ((o.toLocal sqrt c).corner sqrt i)) →
      ¬ o.Surrounded ((o.toLocal sqrt c).corner sqrt) →
      o.intersect sqrt c =
        (o.segmentLoop sqrt (o.toLocal sqrt c) (List.finRange 12)).bind
          (fun _ => Except.ok false)) := by
  have key : o.intersect sqrt c =
      match cornerScan sqrt ⟨-o.m_hx, -o.m_hy, -o.m_hz, o.m_hx, o.m_hy, o.m_hz⟩
          (o.toLocal sqrt c) (List.finRange 8)
          (⟨numeric_limits_max, numeric_limits_max, numeric_limits_max⟩,
           ⟨numeric_limits_lowest, numeric_limits_lowest, numeric_limits_lowest⟩) with
      | none => Except.ok true
      | some (pmin, pmax) =>
        if pmax.x > o.m_hx ∧ pmin.x < -o.m_hx ∧ pmax.y > o.m_hy ∧ pmin.y < -o.m_hy ∧
            pmax.z > o.m_hz ∧ pmin.z < -o.m_hz then Except.ok true
        else (o.segmentLoop sqrt (o.toLocal sqrt c) (List.finRange 12)).bind
          (fun _ => Except.ok false) := rfl
  have hin : (∃ i, o.Holds ((o.toLocal sqrt c).corner sqrt i)) ↔
      cornerScan sqrt ⟨-o.m_hx, -o.m_hy, -o.m_hz, o.m_hx, o.m_hy, o.m_hz⟩
          (o.toLocal sqrt c) (List.finRange 8)
          (⟨numeric_limits_max, numeric_limits_max, numeric_limits_max⟩,
           ⟨numeric_limits_lowest, numeric_limits_lowest, numeric_limits_lowest⟩) = none := by
    rw [cornerScan_eq_none_iff]
    simp [BOX3D.contains, Obb.Holds]
  rw [key]
  cases hscan : cornerScan sqrt ⟨-o.m_hx, -o.m_hy, -o.m_hz, o.m_hx, o.m_hy, o.m_hz⟩
          (o.toLocal sqrt c) (List.finRange 8)
          (⟨numeric_limits_max, numeric_limits_max, numeric_limits_max⟩,
           ⟨numeric_limits_lowest, numeric_limits_lowest, numeric_limits_lowest⟩) with
  | none =>
    have hyes := hin.mpr hscan
    exact ⟨fun _ => rfl, fun hn => absurd hyes hn, fun hn => absurd hyes hn⟩
  | some st =>
    obtain ⟨pmin, pmax⟩ := st
    have hno : ¬ ∃ i, o.Holds ((o.toLocal sqrt c).corner sqrt i) := by
      rw [hin, hscan]; simp
    have ex := cornerScan_eq_some sqrt _ _ _ _ _ hscan o.m_hx
    have ey := cornerScan_eq_some sqrt _ _ _ _ _ hscan o.m_hy
    have ez := cornerScan_eq_some sqrt _ _ _ _ _ hscan o.m_hz
    have ex1 := cornerScan_eq_some sqrt _ _ _ _ _ hscan (-o.m_hx)
    have ey1 := cornerScan_eq_some sqrt _ _ _ _ _ hscan (-o.m_hy)
    have ez1 := cornerScan_eq_some sqrt _ _ _ _ _ hscan (-o.m_hz)
    have hlow : (numeric_limits_lowest : K) = -numeric_limits_max := rfl
    have hsur : o.Surrounded ((o.toLocal sqrt c).corner sqrt) ↔
        (pmax.x > o.m_hx ∧ pmin.x < -o.m_hx ∧ pmax.y > o.m_hy ∧ pmin.y < -o.m_hy ∧
            pmax.z > o.m_hz ∧ pmin.z < -o.m_hz) := by
      simp only [List.mem_finRange, true_and] at ex ey ez ex1 ey1 ez1
      unfold Obb.Surrounded
      rw [gt_iff_lt, gt_iff_lt, gt_iff_lt, ex.1, ex1.2.1, ey.2.2.1, ey1.2.2.2.1,
        ez.2.2.2.2.1, ez1.2.2.2.2.2]
      have a1 : ¬ o.m_hx < numeric_limits_lowest := not_lt.mpr hx
      have a2 : ¬ (numeric_limits_max : K) < -o.m_hx := by rw [hlow] at hx; linarith
      have a3 : ¬ o.m_hy < numeric_limits_lowest := not_lt.mpr hy
      have a4 : ¬ (numeric_limits_max : K) < -o.m_hy := by rw [hlow] at hy; linarith
      have a5 : ¬ o.m_hz < numeric_limits_lowest := not_lt.mpr hz
      have a6 : ¬ (numeric_limits_max : K) < -o.m_hz := by rw [hlow] at hz; linarith
      simp only [a1, a2, a3, a4, a5, a6, false_or]
    refine ⟨fun h => absurd h hno, fun _ h => ?_, fun _ h => ?_⟩
    · simp only [if_pos (hsur.mp h)]
    · simp only [if_neg (fun h1 => h (hsur.mpr h1))]

/-- A corner of the re-expressed `c` in the box of `o` makes `intersect` return
`true`, whatever the half-extents. -/
theorem intersect_of_corner (sqrt : K → K) (o c : Obb K)
    (h : ∃ i, o.Holds ((o.toLocal sqrt c).corner sqrt i)) :
    o.intersect sqrt c = Except.ok true := by
  have hin : cornerScan sqrt ⟨-o.m_hx, -o.m_hy, -o.m_hz, o.m_hx, o.m_hy, o.m_hz⟩
          (o.toLocal sqrt c) (List.finRange 8)
          (⟨numeric_limits_max, numeric_limits_max, numeric_limits_max⟩,
           ⟨numeric_limits_lowest, numeric_limits_lowest, numeric_limits_lowest⟩) = none := by
    rw [cornerScan_eq_none_iff]
    simpa [BOX3D.contains, Obb.Holds] using h
  have key : o.intersect sqrt c =
      match cornerScan sqrt ⟨-o.m_hx, -o.m_hy, -o.m_hz, o.m_hx, o.m_hy, o.m_hz⟩
          (o.toLocal sqrt c) (List.finRange 8)
          (⟨numeric_limits_max, numeric_limits_max, numeric_limits_max⟩,
           ⟨numeric_limits_lowest, numeric_limits_lowest, numeric_limits_lowest⟩) with
      | none => Except.ok true
      | some (pmin, pmax) =>
        if pmax.x > o.m_hx ∧ pmin.x < -o.m_hx ∧ pmax.y > o.m_hy ∧ pmin.y < -o.m_hy ∧
            pmax.z > o.m_hz ∧ pmin.z < -o.m_hz then Except.ok true
        else (o.segmentLoop sqrt (o.toLocal sqrt c) (List.finRange 12)).bind
          (fun _ => Except.ok false) := rfl
  rw [key, hin]

/-! ## The edge/face stage on a box with a zero half-extent -/

/-- On the zero face vector the projection loop writes a third coordinate. -/
theorem projectAndTest_zero (o : Obb K) (isect : Fin 3 → Option K) :
    projectAndTest o ⟨0, 0, 0⟩ isect = Except.error Fault.coordOverflow := by
  unfold projectAndTest projectStep
  simp [Vector3d.get, bind, Except.bind]

/-- The zero face vector makes both dot products zero, the quotient is not a
number, the face is not skipped, and the projection faults. -/
theorem faceCheck_zero (o : Obb K) (seg : Segment K) :
    o.faceCheck seg ⟨0, 0, 0⟩ = Except.error Fault.coordOverflow := by
  unfold Obb.faceCheck
  simp [Vector3d.dot, fdiv, projectAndTest_zero]

theorem faceLoop_cons_ok (o : Obb K) (seg : Segment K) (face : Vector3d K)
    (fs : List (Vector3d K)) (b : Bool) (h : o.faceCheck seg face = Except.ok b) :
    o.faceLoop seg (face :: fs) = o.faceLoop seg fs := by
  simp [Obb.faceLoop, h, bind, Except.bind]

theorem faceLoop_cons_zero (o : Obb K) (seg : Segment K) (fs : List (Vector3d K)) :
    o.faceLoop seg (⟨0, 0, 0⟩ :: fs) = Except.error Fault.coordOverflow := by
  simp [Obb.faceLoop, faceCheck_zero, bind, Except.bind]

/-- On a box with a zero half-extent `intersectNormalized` writes past the
coordinate buffer, for every segment. -/
theorem intersectNormalized_degenerate (o : Obb K)
    (h : o.m_hx = 0 ∨ o.m_hy = 0 ∨ o.m_hz = 0) (seg : Segment K) :
    o.intersectNormalized seg = Except.error Fault.coordOverflow := by
  have goal : o.faceLoop seg o.faces = Except.error Fault.coordOverflow := by
    unfold Obb.faces
    by_cases hx : o.m_hx = 0
    · rw [hx]; exact faceLoop_cons_zero o seg _
    obtain ⟨b1, h1⟩ := faceCheck_ok o seg ⟨o.m_hx, 0, 0⟩ (projectAndTest_x o _ hx)
    obtain ⟨b2, h2⟩ := faceCheck_ok o seg ⟨-o.m_hx, 0, 0⟩
      (projectAndTest_x o _ (neg_ne_zero.mpr hx))
    rw [faceLoop_cons_ok o seg _ _ b1 h1, faceLoop_cons_ok o seg _ _ b2 h2]
    by_cases hy : o.m_hy = 0
    · rw [hy]; exact faceLoop_cons_zero o seg _
    obtain ⟨b3, h3⟩ := faceCheck_ok o seg ⟨0, o.m_hy, 0⟩ (projectAndTest_y o _ hy)
    obtain ⟨b4, h4⟩ := faceCheck_ok o seg ⟨0, -o.m_hy, 0⟩
      (projectAndTest_y o _ (neg_ne_zero.mpr hy))
    rw [faceLoop_cons_ok o seg _ _ b3 h3, faceLoop_cons_ok o seg _ _ b4 h4]
    have hz : o.m_hz = 0 := by
      rcases h with h | h | h
      · exact absurd h hx
      · exact absurd h hy
      · exact h
    rw [hz]; exact faceLoop_cons_zero o seg _
  simp [Obb.intersectNormalized, goal, bind, Except.bind]

/-- On a box with a zero half-extent the edge loop of `intersect` faults at its
first edge. -/
theorem segmentLoop_degenerate (sqrt : K → K) (o c : Obb K)
    (h : o.m_hx = 0 ∨ o.m_hy = 0 ∨ o.m_hz = 0) :
    o.segmentLoop sqrt c (List.finRange 12) = Except.error Fault.coordOverflow := by
  have e : List.finRange 12 = (0 : Fin 12) :: (List.finRange 12).tail := by decide
  rw [e]
  simp [Obb.segmentLoop, intersectNormalized_degenerate o h, bind, Except.bind]

theorem numeric_limits_lowest_neg : (numeric_limits_lowest : K) < 0 := by
  have h : (numeric_limits_lowest : K) = -numeric_limits_max := rfl
  have := numeric_limits_max_pos (K := K)
  rw [h]; linarith

/-- The path through the body of the face loop determines what `faceCheck`
reports. -/
theorem faceCheck_eq_facePath (o : Obb K) (seg : Segment K) (face : Vector3d K) :
    o.faceCheck seg face =
      (o.facePath seg face).map (fun p =>
        match p with
        | FacePath.skipped => false
        | FacePath.tested b => b) := by
  unfold Obb.faceCheck Obb.facePath
  simp only
  split
  · rfl
  · split
    · rfl
    · cases projectAndTest o face _ <;> rfl
  · cases projectAndTest o face _ <;> rfl

/-- C12 (the code at the failing input): for the flat box `A`, centre `(0,0,0)`
and half-extents `(0,1,1)`, and the cube `B`, centre `(5,0,0)` and half-extents
`(1,1,1)`, both axis-aligned, `A.intersect(B)` reaches the edge/face stage and
writes a third coordinate past the two-element buffer. -/
theorem intersect_degenerate_overflow :
    Obb.intersect Real.sqrt (⟨⟨0, 0, 0⟩, 0, 1, 1, ⟨1, 0, 0, 0⟩⟩ : Obb ℝ)
      ⟨⟨5, 0, 0⟩, 1, 1, 1, ⟨1, 0, 0, 0⟩⟩ = Except.error Fault.coordOverflow := by
  have hl := numeric_limits_lowest_neg (K := ℝ)
  have h := (intersect_cases Real.sqrt (⟨⟨0, 0, 0⟩, 0, 1, 1, ⟨1, 0, 0, 0⟩⟩ : Obb ℝ)
    ⟨⟨5, 0, 0⟩, 1, 1, 1, ⟨1, 0, 0, 0⟩⟩ (le_of_lt hl) (by simp only; linarith)
    (by simp only; linarith)).2.2
  rw [h, segmentLoop_degenerate Real.sqrt _ _ (Or.inl rfl)]
  · rfl
  · simp only [exists_fin8, Obb.Holds, corner_table, Obb.toLocal,
      inverse_identity, rotate_identity Real.sqrt isSqrt_real, Vector3d.sub, Vector3d.add]
    norm_num
  · simp only [exists_fin8, Obb.Surrounded, corner_table, Obb.toLocal,
      inverse_identity, rotate_identity Real.sqrt isSqrt_real, Vector3d.sub, Vector3d.add]
    norm_num

/-- C14 (the code at the failing input): for the unit cube `A` at the origin and
the bar `B` with the same centre and half-extents `(5, 1/2, 1/2)`, both
axis-aligned, no corner of `B` is in `A` and the corners do not surround `A`;
edge 8 of `B` runs from `(5, 1/2, 1/2)` to `(-5, 1/2, 1/2)` and crosses the face
`x = 1` of `A` at `t = 2/5` in the point `(1, 1/2, 1/2)` of the face, so the
disabled branch is reached; `A.intersect(B)` is `false`. -/
theorem intersect_ignores_edge_crossing :
    (¬ ∃ i, (⟨⟨0, 0, 0⟩, 1, 1, 1, ⟨1, 0, 0, 0⟩⟩ : Obb ℝ).Holds
      ((Obb.toLocal Real.sqrt ⟨⟨0, 0, 0⟩, 1, 1, 1, ⟨1, 0, 0, 0⟩⟩
        ⟨⟨0, 0, 0⟩, 5, 1 / 2, 1 / 2, ⟨1, 0, 0, 0⟩⟩).corner Real.sqrt i)) ∧
    ¬ (⟨⟨0, 0, 0⟩, 1, 1, 1, ⟨1, 0, 0, 0⟩⟩ : Obb ℝ).Surrounded
      ((Obb.toLocal Real.sqrt ⟨⟨0, 0, 0⟩, 1, 1, 1, ⟨1, 0, 0, 0⟩⟩
        ⟨⟨0, 0, 0⟩, 5, 1 / 2, 1 / 2, ⟨1, 0, 0, 0⟩⟩).corner Real.sqrt) ∧
    Obb.segment Real.sqrt (Obb.toLocal Real.sqrt ⟨⟨0, 0, 0⟩, 1, 1, 1, ⟨1, 0, 0, 0⟩⟩
        ⟨⟨0, 0, 0⟩, 5, 1 / 2, 1 / 2, ⟨1, 0, 0, 0⟩⟩) 8
      = ((⟨5, 1 / 2, 1 / 2⟩ : Vector3d ℝ), (⟨-5, 1 / 2, 1 / 2⟩ : Vector3d ℝ)) ∧
    (((⟨-5, 1 / 2, 1 / 2⟩ : Vector3d ℝ).sub ⟨5, 1 / 2, 1 / 2⟩).smul (2 / 5)).add
        ⟨5, 1 / 2, 1 / 2⟩ = ⟨1, 1 / 2, 1 / 2⟩ ∧
    Obb.faceCheck (⟨⟨0, 0, 0⟩, 1, 1, 1, ⟨1, 0, 0, 0⟩⟩ : Obb ℝ)
      ((⟨5, 1 / 2, 1 / 2⟩ : Vector3d ℝ), (⟨-5, 1 / 2, 1 / 2⟩ : Vector3d ℝ)) ⟨1, 0, 0⟩
      = Except.ok true ∧
    Obb.intersect Real.sqrt (⟨⟨0, 0, 0⟩, 1, 1, 1, ⟨1, 0, 0, 0⟩⟩ : Obb ℝ)
      ⟨⟨0, 0, 0⟩, 5, 1 / 2, 1 / 2, ⟨1, 0, 0, 0⟩⟩ = Except.ok false := by
  have hno : ¬ ∃ i, (⟨⟨0, 0, 0⟩, 1, 1, 1, ⟨1, 0, 0, 0⟩⟩ : Obb ℝ).Holds
      ((Obb.toLocal Real.sqrt ⟨⟨0, 0, 0⟩, 1, 1, 1, ⟨1, 0, 0, 0⟩⟩
        ⟨⟨0, 0, 0⟩, 5, 1 / 2, 1 / 2, ⟨1, 0, 0, 0⟩⟩).corner Real.sqrt i) := by
    simp only [exists_fin8, Obb.Holds, corner_table, Obb.toLocal,
      inverse_identity, rotate_identity Real.sqrt isSqrt_real, Vector3d.sub, Vector3d.add]
    norm_num
  have hns : ¬ (⟨⟨0, 0, 0⟩, 1, 1, 1, ⟨1, 0, 0, 0⟩⟩ : Obb ℝ).Surrounded
      ((Obb.toLocal Real.sqrt ⟨⟨0, 0, 0⟩, 1, 1, 1, ⟨1, 0, 0, 0⟩⟩
        ⟨⟨0, 0, 0⟩, 5, 1 / 2, 1 / 2, ⟨1, 0, 0, 0⟩⟩).corner Real.sqrt) := by
    simp only [exists_fin8, Obb.Surrounded, corner_table, Obb.toLocal,
      inverse_identity, rotate_identity Real.sqrt isSqrt_real, Vector3d.sub, Vector3d.add]
    norm_num
  refine ⟨hno, hns, ?_, ?_, ?_, ?_⟩
  · simp only [Obb.segment, segs_table, corner_table, Obb.toLocal,
      inverse_identity, rotate_identity Real.sqrt isSqrt_real, Vector3d.sub, Vector3d.add]
    norm_num
  · norm_num [Vector3d.sub, Vector3d.smul, Vector3d.add]
  · norm_num [Obb.faceCheck, fdiv, Vector3d.sub, Vector3d.dot, Vector3d.smul, Vector3d.add,
      projectAndTest, projectStep, Vector3d.get, Obb.boxes, BOX2D.contains, bind,
      Except.bind]
  · refine (intersect_eq_of_pos Real.sqrt _ _ (by norm_num) (by norm_num) (by norm_num)).2 ?_
    rintro (h | h)
    · exact hno h
    · exact hns h

/-- C15 (the code at the failing input): for this box with centre `(1,0,0)` and
quaternion `(x, y, z, w) = (0, 0, 1, 1)` and the axis-aligned other box with
centre `(4,0,0)` and half-extents `(1,2,3)`, the first point that `intersect`
tests is `(1,-1,3)`, while corner 0 of the other box, `(5,2,3)`, expressed in the
frame of this box is `(2,-4,3)`. -/
theorem tested_corner_is_not_reexpressed :
    (Obb.toLocal Real.sqrt (⟨⟨1, 0, 0⟩, 2, 1, 1, ⟨1, 0, 0, 1⟩⟩ : Obb ℝ)
        ⟨⟨4, 0, 0⟩, 1, 2, 3, ⟨1, 0, 0, 0⟩⟩).corner Real.sqrt 0 = ⟨1, -1, 3⟩ ∧
    Obb.corner Real.sqrt (⟨⟨4, 0, 0⟩, 1, 2, 3, ⟨1, 0, 0, 0⟩⟩ : Obb ℝ) 0 = ⟨5, 2, 3⟩ ∧
    rotate Real.sqrt
        ((Obb.corner Real.sqrt (⟨⟨4, 0, 0⟩, 1, 2, 3, ⟨1, 0, 0, 0⟩⟩ : Obb ℝ) 0).sub ⟨1, 0, 0⟩)
        (⟨1, 0, 0, 1⟩ : Quaterniond ℝ).inverse = ⟨2, -4, 3⟩ ∧
    (Obb.toLocal Real.sqrt (⟨⟨1, 0, 0⟩, 2, 1, 1, ⟨1, 0, 0, 1⟩⟩ : Obb ℝ)
        ⟨⟨4, 0, 0⟩, 1, 2, 3, ⟨1, 0, 0, 0⟩⟩).corner Real.sqrt 0
      ≠ rotate Real.sqrt
        ((Obb.corner Real.sqrt (⟨⟨4, 0, 0⟩, 1, 2, 3, ⟨1, 0, 0, 0⟩⟩ : Obb ℝ) 0).sub ⟨1, 0, 0⟩)
        (⟨1, 0, 0, 1⟩ : Quaterniond ℝ).inverse := by
  have hinv : (⟨1, 0, 0, 1⟩ : Quaterniond ℝ).inverse = ⟨1 / 2, 0, 0, -(1 / 2)⟩ := by
    simp only [Quaterniond.inverse, Quaterniond.squaredNorm]
    norm_num
  have hq : 0 < (⟨1 / 2, 0, 0, -(1 / 2)⟩ : Quaterniond ℝ).squaredNorm := by
    norm_num [Quaterniond.squaredNorm]
  have h1 : (Obb.toLocal Real.sqrt (⟨⟨1, 0, 0⟩, 2, 1, 1, ⟨1, 0, 0, 1⟩⟩ : Obb ℝ)
        ⟨⟨4, 0, 0⟩, 1, 2, 3, ⟨1, 0, 0, 0⟩⟩).corner Real.sqrt 0 = ⟨1, -1, 3⟩ := by
    simp only [corner_table, Obb.toLocal, hinv, rotate_identity Real.sqrt isSqrt_real,
      fun v => rotate_eq Real.sqrt isSqrt_real v _ hq, rotateExact_eq,
      Quaterniond.squaredNorm, Vector3d.sub, Vector3d.add]
    norm_num
  have h2 : Obb.corner Real.sqrt (⟨⟨4, 0, 0⟩, 1, 2, 3, ⟨1, 0, 0, 0⟩⟩ : Obb ℝ) 0
      = ⟨5, 2, 3⟩ := by
    simp only [corner_table, rotate_identity Real.sqrt isSqrt_real, Vector3d.add]
    norm_num
  have h3 : rotate Real.sqrt
        ((Obb.corner Real.sqrt (⟨⟨4, 0, 0⟩, 1, 2, 3, ⟨1, 0, 0, 0⟩⟩ : Obb ℝ) 0).sub ⟨1, 0, 0⟩)
        (⟨1, 0, 0, 1⟩ : Quaterniond ℝ).inverse = ⟨2, -4, 3⟩ := by
    rw [h2, hinv, rotate_eq Real.sqrt isSqrt_real _ _ hq, rotateExact_eq]
    simp only [Quaterniond.squaredNorm, Vector3d.sub]
    norm_num
  refine ⟨h1, h2, h3, ?_⟩
  rw [h1, h3]
  intro h
  have := congrArg Vector3d.x h
  norm_num at this

/-- C18 (the code at the failing input): for the unit cube at the origin and the
axis-aligned cube with centre `(2,5,0)` and half-extents `(1,1,1)`, `intersect`
reaches the edge/face stage; edge 4 of the other cube runs from `(1,6,1)` to
`(1,4,1)` inside the plane of the face `x = 1`, so the divisor of the line-plane
solve is zero; the division is carried out all the same, its result is not a
number, the face is not skipped and the rectangle test is reached. -/
theorem parallel_segment_is_divided_and_tested :
    (¬ ∃ i, (⟨⟨0, 0, 0⟩, 1, 1, 1, ⟨1, 0, 0, 0⟩⟩ : Obb ℝ).Holds
      ((Obb.toLocal Real.sqrt ⟨⟨0, 0, 0⟩, 1, 1, 1, ⟨1, 0, 0, 0⟩⟩
        ⟨⟨2, 5, 0⟩, 1, 1, 1, ⟨1, 0, 0, 0⟩⟩).corner Real.sqrt i)) ∧
    ¬ (⟨⟨0, 0, 0⟩, 1, 1, 1, ⟨1, 0, 0, 0⟩⟩ : Obb ℝ).Surrounded
      ((Obb.toLocal Real.sqrt ⟨⟨0, 0, 0⟩, 1, 1, 1, ⟨1, 0, 0, 0⟩⟩
        ⟨⟨2, 5, 0⟩, 1, 1, 1, ⟨1, 0, 0, 0⟩⟩).corner Real.sqrt) ∧
    Obb.segment Real.sqrt (Obb.toLocal Real.sqrt ⟨⟨0, 0, 0⟩, 1, 1, 1, ⟨1, 0, 0, 0⟩⟩
        ⟨⟨2, 5, 0⟩, 1, 1, 1, ⟨1, 0, 0, 0⟩⟩) 4
      = ((⟨1, 6, 1⟩ : Vector3d ℝ), (⟨1, 4, 1⟩ : Vector3d ℝ)) ∧
    ((⟨1, 4, 1⟩ : Vector3d ℝ).sub ⟨1, 6, 1⟩).dot ⟨1, 0, 0⟩ = 0 ∧
    fdiv (((⟨1, 0, 0⟩ : Vector3d ℝ).sub ⟨1, 6, 1⟩).dot ⟨1, 0, 0⟩)
      (((⟨1, 4, 1⟩ : Vector3d ℝ).sub ⟨1, 6, 1⟩).dot ⟨1, 0, 0⟩) = DivResult.nan ∧
    Obb.facePath (⟨⟨0, 0, 0⟩, 1, 1, 1, ⟨1, 0, 0, 0⟩⟩ : Obb ℝ)
      ((⟨1, 6, 1⟩ : Vector3d ℝ), (⟨1, 4, 1⟩ : Vector3d ℝ)) ⟨1, 0, 0⟩
      = Except.ok (FacePath.tested false) := by
  refine ⟨?_, ?_, ?_, ?_, ?_, ?_⟩
  · simp only [exists_fin8, Obb.Holds, corner_table, Obb.toLocal,
      inverse_identity, rotate_identity Real.sqrt isSqrt_real, Vector3d.sub, Vector3d.add]
    norm_num
  · simp only [exists_fin8, Obb.Surrounded, corner_table, Obb.toLocal,
      inverse_identity, rotate_identity Real.sqrt isSqrt_real, Vector3d.sub, Vector3d.add]
    norm_num
  · simp only [Obb.segment, segs_table, corner_table, Obb.toLocal,
      inverse_identity, rotate_identity Real.sqrt isSqrt_real, Vector3d.sub, Vector3d.add]
    norm_num
  · norm_num [Vector3d.sub, Vector3d.dot]
  · norm_num [fdiv, Vector3d.sub, Vector3d.dot]
  · norm_num [Obb.facePath, fdiv, Vector3d.sub, Vector3d.dot, projectAndTest, projectStep,
      Vector3d.get, Obb.boxes, bind, Except.bind, Except.map]

/-! ## Rescaled quaternions -/

/-- C17: when the half-extents of this box are non-negative and a corner of the
other box, as computed in the frame of this box, lies in the closed box
`[-hx, hx] × [-hy, hy] × [-hz, hz]`, `intersect` returns `true`. -/
theorem corner_in_closed_box_intersects (sqrt : K → K) (o c : Obb K)
    (_hx : 0 ≤ o.m_hx) (_hy : 0 ≤ o.m_hy) (_hz : 0 ≤ o.m_hz) (i : Fin 8)
    (h : -o.m_hx ≤ ((o.toLocal sqrt c).corner sqrt i).x ∧
      ((o.toLocal sqrt c).corner sqrt i).x ≤ o.m_hx ∧
      -o.m_hy ≤ ((o.toLocal sqrt c).corner sqrt i).y ∧
      ((o.toLocal sqrt c).corner sqrt i).y ≤ o.m_hy ∧
      -o.m_hz ≤ ((o.toLocal sqrt c).corner sqrt i).z ∧
      ((o.toLocal sqrt c).corner sqrt i).z ≤ o.m_hz) :
    o.intersect sqrt c = Except.ok true :=
  intersect_of_corner sqrt o c ⟨i, h⟩

/-- Witness of C17: over the reals, the unit cube at the origin and the cube of
half-extent `1` centred at `(2, 0, 0)`, whose corner 1 is the corner `(1, 1, 1)`
of the unit cube. -/
theorem corner_in_closed_box_intersects_witness :
    (Obb.toLocal Real.sqrt (⟨⟨0, 0, 0⟩, 1, 1, 1, ⟨1, 0, 0, 0⟩⟩ : Obb ℝ)
        ⟨⟨2, 0, 0⟩, 1, 1, 1, ⟨1, 0, 0, 0⟩⟩).corner Real.sqrt 1 = ⟨1, 1, 1⟩ ∧
    Obb.intersect Real.sqrt (⟨⟨0, 0, 0⟩, 1, 1, 1, ⟨1, 0, 0, 0⟩⟩ : Obb ℝ)
        ⟨⟨2, 0, 0⟩, 1, 1, 1, ⟨1, 0, 0, 0⟩⟩ = Except.ok true := by
  have hp : (Obb.toLocal Real.sqrt (⟨⟨0, 0, 0⟩, 1, 1, 1, ⟨1, 0, 0, 0⟩⟩ : Obb ℝ)
        ⟨⟨2, 0, 0⟩, 1, 1, 1, ⟨1, 0, 0, 0⟩⟩).corner Real.sqrt 1 = ⟨1, 1, 1⟩ := by
    simp only [corner_table, Obb.toLocal, inverse_identity,
      rotate_identity Real.sqrt isSqrt_real, Vector3d.sub, Vector3d.add]
    norm_num
  refine ⟨hp, corner_in_closed_box_intersects Real.sqrt _ _ (by norm_num) (by norm_num)
    (by norm_num) 1 ?_⟩
  rw [hp]
  norm_num

/-! ## The projection loop -/

/-- The projection of `intersectNormalized` is its loop followed by the
rectangle test. -/
theorem projectAndTest_eq (o : Obb K) (face : Vector3d K) (isect : Fin 3 → Option K) :
    projectAndTest o face isect = (projectLoop o face isect).bind rectangleTest := by
  unfold projectAndTest projectLoop
  simp only [bind, Except.bind]
  cases projectStep o face isect ⟨none, none, 0, none⟩ 0 with
  | error e => rfl
  | ok st1 =>
    simp only
    cases projectStep o face isect st1 1 with
    | error e => rfl
    | ok st2 =>
      simp only
      cases projectStep o face isect st2 2 with
      | error e => rfl
      | ok st3 => rfl

theorem facePath_ok (o : Obb K) (seg : Segment K) (face : Vector3d K)
    (h : ∀ isect, ∃ b, projectAndTest o face isect = Except.ok b) :
    ∃ p, o.facePath seg face = Except.ok p := by
  unfold Obb.facePath
  simp only
  split
  · exact ⟨_, rfl⟩
  · split
    · exact ⟨_, rfl⟩
    · obtain ⟨b, hb⟩ := h (fun i =>
        some ((((seg.2.sub seg.1).smul _).add seg.1).get i))
      exact ⟨FacePath.tested b, by rw [hb]; rfl⟩
  · obtain ⟨b, hb⟩ := h (fun _ => none)
    exact ⟨FacePath.tested b, by rw [hb]; rfl⟩

/-- C20: on a box whose half-extents are all non-zero, each of the six faces has
exactly one non-zero component; for every candidate point the projection loop
ends with `pos = 2`, the two other coordinates in `coord[0]` and `coord[1]` in
increasing axis order, and the rectangle of the half-extents of these two axes;
no face of any segment faults. -/
theorem nondegenerate_faces_project (o : Obb K) (hx : o.m_hx ≠ 0) (hy : o.m_hy ≠ 0)
    (hz : o.m_hz ≠ 0) (isect : Fin 3 → Option K) :
    (∀ face ∈ o.faces, ∃! a : Fin 3, face.get a ≠ 0) ∧
    projectLoop o ⟨o.m_hx, 0, 0⟩ isect = Except.ok
      ⟨some (isect 1), some (isect 2), 2, some ⟨-o.m_hy, -o.m_hz, o.m_hy, o.m_hz⟩⟩ ∧
    projectLoop o ⟨-o.m_hx, 0, 0⟩ isect = Except.ok
      ⟨some (isect 1), some (isect 2), 2, some ⟨-o.m_hy, -o.m_hz, o.m_hy, o.m_hz⟩⟩ ∧
    projectLoop o ⟨0, o.m_hy, 0⟩ isect = Except.ok
      ⟨some (isect 0), some (isect 2), 2, some ⟨-o.m_hx, -o.m_hz, o.m_hx, o.m_hz⟩⟩ ∧
    projectLoop o ⟨0, -o.m_hy, 0⟩ isect = Except.ok
      ⟨some (isect 0), some (isect 2), 2, some ⟨-o.m_hx, -o.m_hz, o.m_hx, o.m_hz⟩⟩ ∧
    projectLoop o ⟨0, 0, o.m_hz⟩ isect = Except.ok
      ⟨some (isect 0), some (isect 1), 2, some ⟨-o.m_hx, -o.m_hy, o.m_hx, o.m_hy⟩⟩ ∧
    projectLoop o ⟨0, 0, -o.m_hz⟩ isect = Except.ok
      ⟨some (isect 0), some (isect 1), 2, some ⟨-o.m_hx, -o.m_hy, o.m_hx, o.m_hy⟩⟩ ∧
    (∀ seg, ∀ face ∈ o.faces, ∃ p, o.facePath seg face = Except.ok p) := by
  have one_x : ∀ h : K, h ≠ 0 → ∃! a : Fin 3, (⟨h, 0, 0⟩ : Vector3d K).get a ≠ 0 := by
    intro h hh
    refine ⟨0, by simpa [Vector3d.get] using hh, ?_⟩
    intro b hb
    fin_cases b <;> simp [Vector3d.get] at hb ⊢
  have one_y : ∀ h : K, h ≠ 0 → ∃! a : Fin 3, (⟨0, h, 0⟩ : Vector3d K).get a ≠ 0 := by
    intro h hh
    refine ⟨1, by simpa [Vector3d.get] using hh, ?_⟩
    intro b hb
    fin_cases b <;> simp [Vector3d.get] at hb ⊢
  have one_z : ∀ h : K, h ≠ 0 → ∃! a : Fin 3, (⟨0, 0, h⟩ : Vector3d K).get a ≠ 0 := by
    intro h hh
    refine ⟨2, by simpa [Vector3d.get] using hh, ?_⟩
    intro b hb
    fin_cases b <;> simp [Vector3d.get] at hb ⊢
  have nx := neg_ne_zero.mpr hx
  have ny := neg_ne_zero.mpr hy
  have nz := neg_ne_zero.mpr hz
  refine ⟨?_, ?_, ?_, ?_, ?_, ?_, ?_, ?_⟩
  · intro face hf
    simp only [Obb.faces, List.mem_cons, List.mem_singleton, List.not_mem_nil, or_false] at hf
    rcases hf with rfl | rfl | rfl | rfl | rfl | rfl
    exacts [one_x _ hx, one_x _ nx, one_y _ hy, one_y _ ny, one_z _ hz, one_z _ nz]
  · simp [projectLoop, projectStep, Vector3d.get, hx, Obb.boxes, bind, Except.bind]
  · simp [projectLoop, projectStep, Vector3d.get, hx, Obb.boxes, bind, Except.bind]
  · simp [projectLoop, projectStep, Vector3d.get, hy, Obb.boxes, bind, Except.bind]
  · simp [projectLoop, projectStep, Vector3d.get, hy, Obb.boxes, bind, Except.bind]
  · simp [projectLoop, projectStep, Vector3d.get, hz, Obb.boxes, bind, Except.bind]
  · simp [projectLoop, projectStep, Vector3d.get, hz, Obb.boxes, bind, Except.bind]
  · intro seg face hf
    simp only [Obb.faces, List.mem_cons, List.mem_singleton, List.not_mem_nil, or_false] at hf
    rcases hf with rfl | rfl | rfl | rfl | rfl | rfl
    exacts [facePath_ok o seg _ (projectAndTest_x o _ hx),
      facePath_ok o seg _ (projectAndTest_x o _ nx),
      facePath_ok o seg _ (projectAndTest_y o _ hy),
      facePath_ok o seg _ (projectAndTest_y o _ ny),
      facePath_ok o seg _ (projectAndTest_z o _ hz),
      facePath_ok o seg _ (projectAndTest_z o _ nz)]

/-- Witness of C20: the box with half-extents `(2, 1, 3/2)` and the candidate
point `(7, 8, 9)`, over the rationals. -/
theorem nondegenerate_faces_project_witness :
    (2 : ℚ) ≠ 0 ∧ (1 : ℚ) ≠ 0 ∧ (3 / 2 : ℚ) ≠ 0 ∧
    projectLoop (⟨⟨0, 0, 0⟩, 2, 1, 3 / 2, ⟨1, 0, 0, 0⟩⟩ : Obb ℚ) ⟨0, 1, 0⟩
        ![some 7, some 8, some 9]
      = Except.ok ⟨some (some 7), some (some 9), 2, some ⟨-2, -(3 / 2), 2, 3 / 2⟩⟩ :=
  ⟨by norm_num, by norm_num, by norm_num,
    (nondegenerate_faces_project (⟨⟨0, 0, 0⟩, 2, 1, 3 / 2, ⟨1, 0, 0, 0⟩⟩ : Obb ℚ)
      (by norm_num) (by norm_num) (by norm_num) ![some 7, some 8, some 9]).2.2.2.1⟩

end pdal.i3s


namespace pdal.i3s

variable {K : Type}

/-! ## Frame and table claims -/

/-- C13: `transform` leaves the half-extents and the quaternion as they were and
replaces the centre by its image under the coordinate transform. -/
theorem transform_changes_only_center (xform : Vector3d K → Vector3d K) (o : Obb K) :
    (o.transform xform).m_hx = o.m_hx ∧ (o.transform xform).m_hy = o.m_hy ∧
    (o.transform xform).m_hz = o.m_hz ∧ (o.transform xform).m_quat = o.m_quat ∧
    (o.transform xform).m_p = xform o.m_p :=
  ⟨rfl, rfl, rfl, rfl, rfl⟩

/-- C19: the twelve pairs of `segs` are pairwise distinct as unordered pairs;
each joins two corner indices that differ in exactly one bit; every pair of
indices that differ in exactly one bit appears; the first four pairs use corners
with bit 0 clear, the next four corners with bit 0 set, and the last four join
an even `k` with `k + 1`. -/
theorem segs_is_cube_edge_set :
    (∀ i j : Fin 12, i ≠ j →
      segs i ≠ segs j ∧ segs i ≠ ((segs j).2, (segs j).1)) ∧
    (∀ i : Fin 12, (segs i).1.val ^^^ (segs i).2.val = 1 ∨
      (segs i).1.val ^^^ (segs i).2.val = 2 ∨ (segs i).1.val ^^^ (segs i).2.val = 4) ∧
    (∀ a b : Fin 8, (a.val ^^^ b.val = 1 ∨ a.val ^^^ b.val = 2 ∨ a.val ^^^ b.val = 4) →
      ∃ i : Fin 12, segs i = (a, b) ∨ segs i = (b, a)) ∧
    (∀ i : Fin 12, i.val < 4 →
      (segs i).1.val.testBit 0 = false ∧ (segs i).2.val.testBit 0 = false) ∧
    (∀ i : Fin 12, 4 ≤ i.val → i.val < 8 →
      (segs i).1.val.testBit 0 = true ∧ (segs i).2.val.testBit 0 = true) ∧
    (∀ i : Fin 12, 8 ≤ i.val →
      (segs i).1.val % 2 = 0 ∧ (segs i).2.val = (segs i).1.val + 1) := by
  refine ⟨?_, ?_, ?_, ?_, ?_, ?_⟩ <;> decide

end pdal.i3s
